import Mathlib

/-!
Verification development for the BewerberAI guardrail pipeline.

Texts are modelled as `List Char` (the TypeScript string, viewed as its
character sequence).  The JavaScript regular expressions used by the
services are embedded through a small backtracking engine (`RTok`,
`runR`) whose candidate order reproduces the JS semantics: alternatives
are tried left to right and greedy quantifiers prefer more repetitions,
backtracking against the remainder of the pattern.  Every service
function is translated from the repository source; the name of the
source function is kept wherever Lean allows it, inside one namespace
per service module.
-/

set_option maxHeartbeats 2000000
set_option maxRecDepth 16384

namespace Bew

/-- Character class of the JS `\s` (whitespace) escape: ASCII whitespace
plus the Unicode space separators recognised by JavaScript. -/
def isJsWs (c : Char) : Bool :=
  c = ' ' || c = '\t' || c = '\n' || c = '\r' || c = '\u000b' || c = '\u000c' ||
  c = '\u00a0' || c = '\u1680' ||
  ('\u2000' ≤ c && c ≤ '\u200a') ||
  c = '\u2028' || c = '\u2029' || c = '\u202f' || c = '\u205f' ||
  c = '\u3000' || c = '\ufeff'

/-- Character class of the JS `\w` escape (`[A-Za-z0-9_]`), used for the
`\b` word-boundary assertion. -/
def isWordChar (c : Char) : Bool :=
  c.isAlpha || c.isDigit || c = '_'

/-- ASCII lower-casing of one character (JS `toLowerCase` on the ASCII
texts handled by the services). -/
def lowerChar (c : Char) : Char := c.toLower

/-- ASCII lower-casing of a text (JS `String.prototype.toLowerCase`). -/
def toLowerL (s : List Char) : List Char := s.map lowerChar

/-- JS `String.prototype.trim`: drop leading and trailing whitespace. -/
def trimL (s : List Char) : List Char :=
  ((s.dropWhile isJsWs).reverse.dropWhile isJsWs).reverse

/-- The maximal non-whitespace runs of a text, in order.  This is the
word decomposition induced by `split(/\s+/)` followed by dropping empty
pieces.  `acc` holds the (reversed) current run. -/
def wsWordsAux : List Char → List Char → List (List Char)
  | [], acc => if acc.isEmpty then [] else [acc.reverse]
  | c :: cs, acc =>
    if isJsWs c then
      if acc.isEmpty then wsWordsAux cs [] else acc.reverse :: wsWordsAux cs []
    else wsWordsAux cs (c :: acc)

/-- Maximal non-whitespace runs (words) of a text. -/
def wsWords (s : List Char) : List (List Char) := wsWordsAux s []

/-- Join words with single spaces (`Array.prototype.join(" ")`). -/
def joinSpace (ws : List (List Char)) : List Char :=
  (ws.intersperse [' ']).flatten

/-- JS `replace(/\s+/g, " ")`: collapse every whitespace run to a single
space.  `inRun` records whether the previous character was whitespace. -/
def collapseWsAux (inRun : Bool) : List Char → List Char
  | [] => []
  | c :: cs =>
    if isJsWs c then
      if inRun then collapseWsAux true cs else ' ' :: collapseWsAux true cs
    else c :: collapseWsAux false cs

/-- JS `replace(/\s+/g, " ")` on a whole text. -/
def collapseWs (s : List Char) : List Char := collapseWsAux false s

/-- JS `replace(/\r\n/g, "\n")`. -/
def replCRLF : List Char → List Char
  | '\r' :: '\n' :: cs => '\n' :: replCRLF cs
  | c :: cs => c :: replCRLF cs
  | [] => []

/-- Decide whether `pat` occurs as a contiguous substring of `s`
(JS `String.prototype.includes`). -/
def includesL (s pat : List Char) : Bool :=
  (List.range (s.length + 1)).any (fun i => (s.drop i).take pat.length = pat)

/-- JS `String.prototype.replace` with a plain-string pattern: replace
the first occurrence of `pat` (non-empty) by `repl`. -/
def replaceFirstL (s pat repl : List Char) : List Char :=
  match s with
  | [] => []
  | c :: cs =>
    if s.take pat.length = pat ∧ pat ≠ [] then repl ++ s.drop pat.length
    else c :: replaceFirstL cs pat repl

/-- JS `split(sep).join(repl)` (global literal replacement, left to
right, non-overlapping), used by `reinsertRedactedPii`. -/
def replaceAllL (fuel : Nat) (s pat repl : List Char) : List Char :=
  match fuel, s with
  | 0, s => s
  | _, [] => []
  | fuel + 1, c :: cs =>
    if (c :: cs).take pat.length = pat ∧ pat ≠ [] then
      repl ++ replaceAllL fuel ((c :: cs).drop pat.length) pat repl
    else c :: replaceAllL fuel cs pat repl

/-! ## Regular-expression engine

A faithful model of the backtracking search performed by the JS regex
patterns used in the services.  `runR` returns the list of possible
outcomes `(last consumed char, remainder)` in JS priority order:
alternatives left to right, greedy repetition preferring more
iterations.  The actual match taken by the JS engine is the head of
that list.  Repetition bodies in every pattern of this repository
consume at least one character; `runR` enforces that for the optional
iterations of a repetition (via the `r.length < s.length` filter),
which also bounds the recursion by the `fuel` argument. -/

/-- Regex syntax: character classes, the `\b` assertion, empty pattern,
concatenation, ordered alternation and greedy bounded repetition. -/
inductive RTok where
  | cls (p : Char → Bool)
  | wordB
  | eps
  | seq (a b : RTok)
  | alt (a b : RTok)
  | rep (t : RTok) (lo : Nat) (hi : Option Nat)

/-- Priority-ordered outcomes of matching `t` against `s`, where `prev`
is the character immediately before the current position (for `\b`).
Each outcome is the character before the new position plus the
remaining text.  The recursion is structural on `fuel`, which strictly
exceeds the depth of the backtracking call tree whenever the callers
below supply `regexFuel`; the out-of-fuel base case is then
unreachable. -/
def runR : Nat → RTok → Option Char → List Char → List (Option Char × List Char)
  | 0, _, _, _ => []
  | _ + 1, .cls _, _, [] => []
  | _ + 1, .cls p, _, c :: rest => if p c then [(some c, rest)] else []
  | _ + 1, .wordB, prev, s =>
    let pw := match prev with | some c => isWordChar c | none => false
    let nw := match s with | c :: _ => isWordChar c | [] => false
    if pw ≠ nw then [(prev, s)] else []
  | _ + 1, .eps, prev, s => [(prev, s)]
  | fuel + 1, .seq a b, prev, s =>
    (runR fuel a prev s).flatMap (fun pr => runR fuel b pr.1 pr.2)
  | fuel + 1, .alt a b, prev, s => runR fuel a prev s ++ runR fuel b prev s
  | fuel + 1, .rep t (lo + 1) hi, prev, s =>
    (runR fuel t prev s).flatMap
      (fun pr => runR fuel (.rep t lo (hi.map (· - 1))) pr.1 pr.2)
  | _ + 1, .rep _ 0 (some 0), prev, s => [(prev, s)]
  | fuel + 1, .rep t 0 hi, prev, s =>
    (((runR fuel t prev s).filter (fun pr => pr.2.length < s.length)).flatMap
      (fun pr => runR fuel (.rep t 0 (hi.map (· - 1))) pr.1 pr.2)) ++ [(prev, s)]

/-- Structural size of a pattern, counting mandatory repetitions; used
to bound the backtracking depth. -/
def rsize : RTok → Nat
  | .cls _ => 1
  | .wordB => 1
  | .eps => 1
  | .seq a b => rsize a + rsize b + 1
  | .alt a b => rsize a + rsize b + 1
  | .rep t lo _ => (rsize t + 1) * (lo + 2)

/-- A fuel amount strictly larger than the depth of any backtracking
call tree for the patterns of this development on text `s`. -/
def regexFuel (t : RTok) (s : List Char) : Nat :=
  (rsize t + s.length + 4) * (rsize t + s.length + 4)

/-- Convenience constructors mirroring the JS regex notation. -/
def rchar (c : Char) : RTok := .cls (· = c)

/-- Case-insensitive single character (a letter under the `i` flag). -/
def richar (c : Char) : RTok := .cls (fun x => x.toLower = c.toLower)

/-- Concatenation of a list of tokens. -/
def rcat (ts : List RTok) : RTok := ts.foldr .seq .eps

/-- Ordered alternation of a list of tokens (JS `|`, left to right). -/
def ralts : List RTok → RTok
  | [] => .cls (fun _ => false)
  | [t] => t
  | t :: ts => .alt t (ralts ts)

/-- Literal string (case-sensitive). -/
def rstr (s : String) : RTok := rcat (s.data.map rchar)

/-- Literal string under the `i` flag. -/
def ristr (s : String) : RTok := rcat (s.data.map richar)

/-- `?` (greedy option). -/
def ropt (t : RTok) : RTok := .rep t 0 (some 1)

/-- `+` (greedy, unbounded). -/
def rplus (t : RTok) : RTok := .rep t 1 none

/-- `*` (greedy, unbounded). -/
def rstar (t : RTok) : RTok := .rep t 0 none

/-- Sequential match of the parts `ps` from the current position,
returning in priority order the consumed piece of each part plus the
remaining text.  Used to recover the capture groups of the labelled
PII patterns. -/
def runParts : List RTok → Option Char → List Char → List (List (List Char) × (Option Char × List Char))
  | [], prev, s => [([], (prev, s))]
  | p :: ps, prev, s =>
    (runR (regexFuel p s) p prev s).flatMap
      (fun pr =>
        (runParts ps pr.1 pr.2).map
          (fun rest => ((s.take (s.length - pr.2.length)) :: rest.1, rest.2)))

/-- First (JS-chosen) match of the parts at the current position:
the consumed pieces and the remaining text. -/
def tryParts (ps : List RTok) (prev : Option Char) (s : List Char) :
    Option (List (List Char) × List Char) :=
  (runParts ps prev s).head?.map (fun r => (r.1, r.2.2))

/-- One segment of a global scan: either raw text copied verbatim or a
match, split into the consumed pieces of the pattern parts. -/
inductive Seg where
  | raw (cs : List Char)
  | mtch (pieces : List (List Char))

/-- Global scan of `s` with a pattern given as sequential `parts`
(JS `g` flag): at each position, attempt the match; on success consume
it (recording the pieces), otherwise emit one raw character and move
on.  `anchored` restricts match attempts to positions where the JS `^`
with the `m` flag would hold (start of input or just after `\n`).
`prev` is the character before the current position. -/
def scanSegs (fuel : Nat) (parts : List RTok) (anchored : Bool)
    (prev : Option Char) (s : List Char) : List Seg :=
  match fuel, s with
  | 0, s => [.raw s]
  | _, [] => []
  | fuel + 1, c :: cs =>
    let anchorOk := !anchored || (match prev with | none => true | some p => p = '\n')
    match if anchorOk then tryParts parts prev (c :: cs) else none with
    | some (pieces, rest) =>
      if rest.length < (c :: cs).length then
        .mtch pieces ::
          scanSegs fuel parts anchored (((c :: cs).take ((c :: cs).length - rest.length)).getLast?) rest
      else
        .raw [c] :: scanSegs fuel parts anchored (some c) cs
    | none => .raw [c] :: scanSegs fuel parts anchored (some c) cs

/-- All matches of a pattern in `s` in scan order, as the per-part
pieces (JS `String.prototype.match` / `matchAll` with `g`). -/
def reMatches (parts : List RTok) (s : List Char) : List (List (List Char)) :=
  (scanSegs (s.length + 1) parts false none s).filterMap
    (fun seg => match seg with | .raw _ => none | .mtch pieces => some pieces)

/-- Global replacement with a stateful callback
(JS `String.prototype.replace` with `g` and a function argument): the
callback consumes the match pieces and the running state. -/
def reReplaceSt {σ : Type} (parts : List RTok) (anchored : Bool)
    (f : List (List Char) → σ → List Char × σ) (s : List Char) (st : σ) :
    List Char × σ :=
  (scanSegs (s.length + 1) parts anchored none s).foldl
    (fun acc seg =>
      match seg with
      | .raw cs => (acc.1 ++ cs, acc.2)
      | .mtch pieces =>
        let r := f pieces acc.2
        (acc.1 ++ r.1, r.2))
    ([], st)

/-- Pure global replacement (callback without state). -/
def reReplace (parts : List RTok) (anchored : Bool)
    (f : List (List Char) → List Char) (s : List Char) : List Char :=
  (reReplaceSt parts anchored (fun pieces _ => (f pieces, ())) s ()).1

/-- Whether the pattern matches anywhere (JS `RegExp.prototype.test`). -/
def reTest (parts : List RTok) (s : List Char) : Bool :=
  !(reMatches parts s).isEmpty

/-! ## The concrete patterns of the services -/

/-- ASCII digit (`\d`). -/
def rdigit : RTok := .cls Char.isDigit

/-- ASCII letter under the `i` flag (`[A-Z]` in a `gi` pattern). -/
def rialpha : RTok := .cls Char.isAlpha

/-- JS `\s` as a token. -/
def rws : RTok := .cls isJsWs

/-- `EMAIL_REGEX = /\b[A-Z0-9._%+-]+@[A-Z0-9.-]+\.[A-Z]{2,}\b/gi`. -/
def EMAIL_REGEX : RTok :=
  rcat [.wordB,
        rplus (.cls (fun c => c.isAlpha || c.isDigit || c = '.' || c = '_' ||
          c = '%' || c = '+' || c = '-')),
        rchar '@',
        rplus (.cls (fun c => c.isAlpha || c.isDigit || c = '.' || c = '-')),
        rchar '.', .rep rialpha 2 none, .wordB]

/-- `PHONE_CANDIDATE_REGEX = /(?:\+?\d[\d()\s.-]{7,}\d)/g`. -/
def PHONE_CANDIDATE_REGEX : RTok :=
  rcat [ropt (rchar '+'), rdigit,
        .rep (.cls (fun c => c.isDigit || c = '(' || c = ')' || isJsWs c ||
          c = '.' || c = '-')) 7 none,
        rdigit]

/-- Word characters allowed inside a street-address word
(`[A-Za-z0-9.'-]`). -/
def addrWordC (c : Char) : Bool :=
  c.isAlpha || c.isDigit || c = '.' || c = Char.ofNat 39 || c = '-'

/-- `STREET_ADDRESS_REGEX` (flags `gi`): a word boundary, one to five
digits, whitespace, one to five address words (letters, digits, dot,
apostrophe, hyphen), whitespace, one of the street suffixes
`Street|St|Avenue|Ave|Road|Rd|Boulevard|Blvd|Lane|Ln|Drive|Dr|Way|Court|Ct|Place|Pl|Parkway|Pkwy`,
a word boundary and an optional dot. -/
def STREET_ADDRESS_REGEX : RTok :=
  rcat [.wordB, .rep rdigit 1 (some 5), rplus rws, rplus (.cls addrWordC),
        .rep (rcat [rplus rws, rplus (.cls addrWordC)]) 0 (some 4),
        rws,
        ralts [ristr "Street", ristr "St", ristr "Avenue", ristr "Ave",
               ristr "Road", ristr "Rd", ristr "Boulevard", ristr "Blvd",
               ristr "Lane", ristr "Ln", ristr "Drive", ristr "Dr",
               ristr "Way", ristr "Court", ristr "Ct", ristr "Place",
               ristr "Pl", ristr "Parkway", ristr "Pkwy"],
        .wordB, ropt (rchar '.')]

/-- Label part of `BIRTH_DATE_LABELED_REGEX`:
`\b(?:date of birth|dob|born)\b`. -/
def birthLabelPart : RTok :=
  rcat [.wordB, ralts [ristr "date of birth", ristr "dob", ristr "born"], .wordB]

/-- Separator capture of the labelled patterns: `(\s*[:\-]?\s*)`
(for the personal-id pattern the class is `[:#-]`). -/
def labelSepPart (extraHash : Bool) : RTok :=
  rcat [rstar rws,
        ropt (.cls (fun c => c = ':' || (extraHash && c = '#') || c = '-')),
        rstar rws]

/-- Date capture of `BIRTH_DATE_LABELED_REGEX`: a month name with day
and four-digit year (`[A-Za-z]+\s+\d{1,2},\s*\d{4}`), or two of
one-or-two digits and one of two-to-four digits, or four digits then
twice one-or-two digits, the groups separated by dot, slash or
hyphen. -/
def birthValuePart : RTok :=
  let dsep : RTok := .cls (fun c => c = '.' || c = '/' || c = '-')
  ralts
    [rcat [rplus rialpha, rplus rws, .rep rdigit 1 (some 2), rchar ',',
           rstar rws, .rep rdigit 4 (some 4)],
     rcat [.rep rdigit 1 (some 2), dsep, .rep rdigit 1 (some 2), dsep,
           .rep rdigit 2 (some 4)],
     rcat [.rep rdigit 4 (some 4), dsep, .rep rdigit 1 (some 2), dsep,
           .rep rdigit 1 (some 2)]]

/-- `BIRTH_DATE_LABELED_REGEX`, split into the label, the separator
capture and the date capture. -/
def BIRTH_DATE_LABELED_PARTS : List RTok :=
  [birthLabelPart, labelSepPart false, birthValuePart]

/-- Label part of `PERSONAL_ID_LABELED_REGEX`: one of the id labels
`ssn`, `social security number`, `passport` (optionally followed by
`no`, `no.` or `number`), `national id`, `id number`, `tax id`, `tin`,
`aadhaar`, `driver license` (optionally possessive), between word
boundaries. -/
def personalIdLabelPart : RTok :=
  rcat [.wordB,
        ralts [ristr "ssn", ristr "social security number",
               rcat [ristr "passport",
                     ropt (rcat [rstar rws,
                                 ralts [rcat [ristr "no", ropt (rchar '.')],
                                        ristr "number"]])],
               ristr "national id", ristr "id number", ristr "tax id",
               ristr "tin", ristr "aadhaar",
               rcat [ristr "driver",
                     ropt (rcat [rchar (Char.ofNat 39), richar 's']),
                     ristr " license"]],
        .wordB]

/-- Id capture of `PERSONAL_ID_LABELED_REGEX`: `([A-Za-z0-9-]{4,})`. -/
def personalIdValuePart : RTok :=
  .rep (.cls (fun c => c.isAlpha || c.isDigit || c = '-')) 4 none

/-- `PERSONAL_ID_LABELED_REGEX`, split into label, separator capture and
id capture. -/
def PERSONAL_ID_LABELED_PARTS : List RTok :=
  [personalIdLabelPart, labelSepPart true, personalIdValuePart]

/-- `PII_PLACEHOLDER_REGEX = /\[PII_[A-Z_]+_\d+\]/g`. -/
def PII_PLACEHOLDER_REGEX : RTok :=
  rcat [rchar '[', rstr "PII_",
        rplus (.cls (fun c => ('A' ≤ c && c ≤ 'Z') || c = '_')),
        rchar '_', rplus rdigit, rchar ']']

/-- `NUMBER_TOKEN_REGEX = /(?:\d{1,3}(?:,\d{3})+|\d+)(?:\.\d+)?/g`. -/
def NUMBER_TOKEN_REGEX : RTok :=
  rcat [.alt (rcat [.rep rdigit 1 (some 3),
                    rplus (rcat [rchar ',', .rep rdigit 3 (some 3)])])
             (rplus rdigit),
        ropt (rcat [rchar '.', rplus rdigit])]

/-- The list-numbering prefix `/^\s*\d+\.\s+/gm` stripped before
number-token extraction (anchored at line starts). -/
def LIST_NUMBERING_REGEX : RTok :=
  rcat [rstar rws, rplus rdigit, rchar '.', rplus rws]

/-- `DEEP_ANALYSIS_REGEX = /\bdeep\s+analysis\b|\bdeep\b/i`. -/
def DEEP_ANALYSIS_REGEX : RTok :=
  .alt (rcat [.wordB, ristr "deep", rplus rws, ristr "analysis", .wordB])
       (rcat [.wordB, ristr "deep", .wordB])

/-- Convenience: the full matched strings of a single-token pattern, in
scan order (JS `text.match(re) ?? []` with the `g` flag). -/
def reMatchStrings (pat : RTok) (s : List Char) : List (List Char) :=
  (reMatches [pat] s).filterMap List.head?

/-- Stage-3 rewrite output (`RewriteDocsResult` in `geminiService.ts`):
all fields nullable strings. -/
structure RewriteDocsResult where
  optimizedResume : Option (List Char)
  optimizedCoverLetter : Option (List Char)
  rewriteNotes : Option (List Char)
deriving DecidableEq, Repr

namespace Metrics

/-- The metrics vault (`MetricsVault` in `types.ts`): six optional
user-approved numeric-claim strings. -/
structure MetricsVault where
  projectImpact : Option (List Char) := none
  latencyReduction : Option (List Char) := none
  costSavings : Option (List Char) := none
  usersServed : Option (List Char) := none
  uptime : Option (List Char) := none
  otherMetrics : Option (List Char) := none
deriving DecidableEq, Repr

/-- `Object.values(metricsVault).filter(value => typeof value === "string")`
in declared field order. -/
def vaultValues (v : MetricsVault) : List (List Char) :=
  [v.projectImpact, v.latencyReduction, v.costSavings,
   v.usersServed, v.uptime, v.otherMetrics].filterMap id

/-- Models `Number.parseFloat` followed by `Number.prototype.toString`
on a plain decimal numeral: optional sign, integer digits, optional
fraction digits; trailing junk is ignored as `parseFloat` does, and the
printed form strips leading integer zeros and trailing fraction zeros.
This is exact for every numeral whose value is an integer or short
decimal exactly representable in an IEEE double (in particular for all
tokens produced by `NUMBER_TOKEN_REGEX` considered in this
development); numerals needing exponent notation or rounding are out of
scope.  Returns `none` when no digits are present (`NaN`). -/
def canonDecimal (s : List Char) : Option (List Char) :=
  let signNeg : Bool := match s with | '-' :: _ => true | _ => false
  let s1 : List Char := match s with
    | '-' :: r => r
    | '+' :: r => r
    | r => r
  let intD := s1.takeWhile Char.isDigit
  let rest := s1.drop intD.length
  let fracD : List Char := match rest with
    | '.' :: r => r.takeWhile Char.isDigit
    | _ => []
  if intD.isEmpty ∧ fracD.isEmpty then none
  else
    let intT := intD.dropWhile (fun c => c = '0')
    let fracT := (fracD.reverse.dropWhile (fun c => c = '0')).reverse
    let intC := if intT.isEmpty then ['0'] else intT
    let core := if fracT.isEmpty then intC else intC ++ '.' :: fracT
    some (if signNeg ∧ ¬ (intT.isEmpty ∧ fracT.isEmpty) then '-' :: core else core)

/-- `normalizeNumberToken`: strip thousands separators, trim, parse and
re-print (null on empty or non-numeric input). -/
def normalizeNumberToken (value : List Char) : Option (List Char) :=
  let compact := trimL (value.filter (fun c => ¬ c = ','))
  if compact.isEmpty then none else canonDecimal compact

/-- The `value.replace(/^\s*\d+\.\s+/gm, "")` cleanup that strips
leading list numbering before number extraction. -/
def stripListNumbering (value : List Char) : List Char :=
  reReplace [LIST_NUMBERING_REGEX] true (fun _ => []) value

/-- `extractNormalizedNumberTokens`: match number tokens on the cleaned
text, normalize each, and deduplicate preserving first-seen order. -/
def extractNormalizedNumberTokens (value : List Char) : List (List Char) :=
  (reMatchStrings NUMBER_TOKEN_REGEX (stripListNumbering value)).foldl
    (fun result token =>
      match normalizeNumberToken token with
      | none => result
      | some n => if result.contains n then result else result ++ [n])
    []

/-- `getAllowedMetricNumbers`: all normalized number tokens of the
vault values joined with spaces. -/
def getAllowedMetricNumbers (metricsVault : MetricsVault) : List (List Char) :=
  extractNormalizedNumberTokens (joinSpace (vaultValues metricsVault))

/-- `findUnauthorizedNumbersInText`: normalized numbers of `text` that
are not in the allowed vault set. -/
def findUnauthorizedNumbersInText (text : List Char) (metricsVault : MetricsVault) :
    List (List Char) :=
  let allowed := getAllowedMetricNumbers metricsVault
  (extractNormalizedNumberTokens text).filter (fun n => ¬ allowed.contains n)

/-- `findUnauthorizedNumbersForRewrite`: check the combined optimized
resume and cover letter (joined with a newline) against the vault. -/
def findUnauthorizedNumbersForRewrite (rewrite : RewriteDocsResult)
    (metricsVault : MetricsVault) : List (List Char) :=
  let outputText :=
    (rewrite.optimizedResume.getD []) ++ '\n' :: (rewrite.optimizedCoverLetter.getD [])
  findUnauthorizedNumbersInText outputText metricsVault

end Metrics

/-! ## Shared input model (`types.ts`) -/

/-- `AnalysisMode` in `types.ts`. -/
inductive AnalysisMode where
  | fast
  | balanced
  | deep
deriving DecidableEq, Repr

/-- `ApplicationInput` in `types.ts` (text fields as character lists). -/
structure ApplicationInput where
  jobDescription : List Char
  companyInfo : List Char
  resumeContent : List Char
  coverLetterContent : List Char
  portfolioLinks : List Char
  additionalContext : List Char
  analysisMode : AnalysisMode
  privacyMode : Bool
  metricsVault : Metrics.MetricsVault
deriving DecidableEq, Repr

/-- Decimal digit character. -/
def digitChar (d : Nat) : Char := Char.ofNat (48 + d)

/-- Decimal numeral of a natural number (the template interpolation
`${n}` in the placeholder construction); fuel-based so that it reduces
structurally. -/
def natDecimalAux : Nat → Nat → List Char
  | 0, _ => []
  | fuel + 1, n =>
    if n < 10 then [digitChar n] else natDecimalAux fuel (n / 10) ++ [digitChar (n % 10)]

/-- Decimal numeral of `n`. -/
def natDecimal (n : Nat) : List Char := natDecimalAux (n + 1) n

/-- `Array.prototype.join` with a one-character separator. -/
def joinWith (sep : Char) (xs : List (List Char)) : List Char :=
  (xs.intersperse [sep]).flatten

/-- `Array.prototype.join` with a string separator. -/
def joinWith2 (sep : List Char) (xs : List (List Char)) : List Char :=
  (xs.intersperse sep).flatten

namespace Privacy

/-- `PiiType` in `privacyService.ts`. -/
inductive PiiType where
  | EMAIL
  | PHONE
  | STREET_ADDRESS
  | BIRTH_DATE
  | PERSONAL_ID
deriving DecidableEq, Repr

/-- `PiiRedactionEntry`. -/
structure PiiRedactionEntry where
  placeholder : List Char
  original : List Char
  type : PiiType
deriving DecidableEq, Repr

/-- `PiiValidationIssue`. -/
structure PiiValidationIssue where
  count : Nat
  type : PiiType
deriving DecidableEq, Repr

/-- The anchored date-range exclusion `/^\d{4}\s*[-\u002f]\s*\d{4}$/`
used by `isLikelyPhoneNumber` (slash written as an escape here). -/
def dateRangePat : RTok :=
  rcat [.rep rdigit 4 (some 4), rstar rws,
        .cls (fun c => c = '-' || c = '/'), rstar rws,
        .rep rdigit 4 (some 4)]

/-- `isLikelyPhoneNumber`: 8 to 15 digits overall and not a bare
year-range like `2019-2023`. -/
def isLikelyPhoneNumber (value : List Char) : Bool :=
  let trimmed := trimL value
  let digitsOnly := trimmed.filter Char.isDigit
  if digitsOnly.length < 8 || 15 < digitsOnly.length then false
  else
    !((runR (regexFuel dateRangePat trimmed) dateRangePat none trimmed).any
        (fun pr => pr.2.isEmpty))

/-- `normalizeForKey`: collapse whitespace, trim, lower-case. -/
def normalizeForKey (value : List Char) : List Char :=
  toLowerL (trimL (collapseWs value))

/-- `normalizePiiKey`. -/
def normalizePiiKey (t : PiiType) (value : List Char) : List Char :=
  match t with
  | .PHONE => value.filter Char.isDigit
  | .EMAIL => normalizeForKey value
  | .PERSONAL_ID => (value.filter (fun c => c.isAlpha || c.isDigit)).map Char.toUpper
  | _ => normalizeForKey value

/-- Name of a PII type as it appears inside a placeholder. -/
def typeName : PiiType → List Char
  | .EMAIL => "EMAIL".data
  | .PHONE => "PHONE".data
  | .STREET_ADDRESS => "STREET_ADDRESS".data
  | .BIRTH_DATE => "BIRTH_DATE".data
  | .PERSONAL_ID => "PERSONAL_ID".data

/-- The placeholder string `[PII_<TYPE>_<n>]`. -/
def mkPlaceholder (t : PiiType) (n : Nat) : List Char :=
  '[' :: ("PII_".data ++ typeName t ++ '_' :: natDecimal n) ++ [']']

/-- The mutable state of `createRedactor`: per-type counters and the two
insertion-ordered maps.  The JS map key `` `${type}:${normalized}` `` is
modelled as the pair `(type, normalized)`; this is faithful because the
type tag is from a fixed set, so the string key determines and is
determined by the pair. -/
structure RedactorState where
  counters : PiiType → Nat
  keyToPlaceholder : List ((PiiType × List Char) × List Char)
  placeholderToOriginal : List (List Char × List Char × PiiType)

/-- A fresh redactor. -/
def emptyRedactor : RedactorState :=
  { counters := fun _ => 0, keyToPlaceholder := [], placeholderToOriginal := [] }

/-- JS `Map.prototype.get` on the insertion-ordered association list. -/
def lookupKey (m : List ((PiiType × List Char) × List Char)) (k : PiiType × List Char) :
    Option (List Char) :=
  (m.find? (fun e => e.1 = k)).map (fun e => e.2)

/-- The `register` closure of `createRedactor`: return the placeholder
of the normalized key, creating a fresh numbered placeholder on first
sight. -/
def register (st : RedactorState) (value : List Char) (t : PiiType) :
    List Char × RedactorState :=
  let normalized := normalizePiiKey t value
  let key := (t, normalized)
  match lookupKey st.keyToPlaceholder key with
  | some existing => (existing, st)
  | none =>
    let n := st.counters t + 1
    let placeholder := mkPlaceholder t n
    (placeholder,
      { counters := fun u => if u = t then n else st.counters u,
        keyToPlaceholder := st.keyToPlaceholder ++ [(key, placeholder)],
        placeholderToOriginal := st.placeholderToOriginal ++ [(placeholder, value, t)] })

/-- The `entries()` closure of `createRedactor`. -/
def entries (st : RedactorState) : List PiiRedactionEntry :=
  st.placeholderToOriginal.map (fun e => ⟨e.1, e.2.1, e.2.2⟩)

/-- `applyPiiRedaction`: the five sequential global replacements (email,
labelled birth date, labelled personal id, phone candidates, street
addresses), threading the redactor state through the callbacks. -/
def applyPiiRedaction (text : List Char) (st : RedactorState) :
    List Char × RedactorState :=
  let r1 := reReplaceSt [EMAIL_REGEX] false
    (fun pieces st =>
      match pieces with
      | [value] => register st value .EMAIL
      | _ => ([], st)) text st
  let r2 := reReplaceSt BIRTH_DATE_LABELED_PARTS false
    (fun pieces st =>
      match pieces with
      | [lab, sep, birthDate] =>
        let r := register st birthDate .BIRTH_DATE
        (replaceFirstL (lab ++ sep ++ birthDate) birthDate r.1, r.2)
      | _ => ([], st)) r1.1 r1.2
  let r3 := reReplaceSt PERSONAL_ID_LABELED_PARTS false
    (fun pieces st =>
      match pieces with
      | [lab, sep, idValue] =>
        let r := register st idValue .PERSONAL_ID
        (replaceFirstL (lab ++ sep ++ idValue) (sep ++ idValue) (sep ++ r.1), r.2)
      | _ => ([], st)) r2.1 r2.2
  let r4 := reReplaceSt [PHONE_CANDIDATE_REGEX] false
    (fun pieces st =>
      match pieces with
      | [candidate] =>
        if isLikelyPhoneNumber candidate then register st candidate .PHONE
        else (candidate, st)
      | _ => ([], st)) r3.1 r3.2
  let r5 := reReplaceSt [STREET_ADDRESS_REGEX] false
    (fun pieces st =>
      match pieces with
      | [value] => register st value .STREET_ADDRESS
      | _ => ([], st)) r4.1 r4.2
  r5

/-- `reinsertRedactedPii`: literal global substitution of each entry
placeholder by its original, in entry order (null text passes
through). -/
def reinsertRedactedPii (text : Option (List Char)) (entries : List PiiRedactionEntry) :
    Option (List Char) :=
  match text with
  | none => none
  | some t =>
    some (entries.foldl
      (fun restored entry =>
        replaceAllL (restored.length + 1) restored entry.placeholder entry.original)
      t)

/-- A detected PII span (`PiiDetection`). -/
structure PiiDetection where
  type : PiiType
  value : List Char
deriving DecidableEq, Repr

/-- `detectPii`: rerun all five detectors on arbitrary text. -/
def detectPii (text : List Char) : List PiiDetection :=
  ((reMatchStrings EMAIL_REGEX text).map (fun m => PiiDetection.mk .EMAIL m)) ++
  ((reMatchStrings PHONE_CANDIDATE_REGEX text).filterMap
    (fun m => if isLikelyPhoneNumber m then some (PiiDetection.mk .PHONE m) else none)) ++
  ((reMatchStrings STREET_ADDRESS_REGEX text).map (fun m => PiiDetection.mk .STREET_ADDRESS m)) ++
  ((reMatches BIRTH_DATE_LABELED_PARTS text).filterMap
    (fun pieces => (pieces.drop 2).head?.map (fun v => PiiDetection.mk .BIRTH_DATE v))) ++
  ((reMatches PERSONAL_ID_LABELED_PARTS text).filterMap
    (fun pieces => (pieces.drop 2).head?.map (fun v => PiiDetection.mk .PERSONAL_ID v)))

/-- Increment the per-type counter map (JS `Map` keyed by type,
insertion ordered). -/
def bumpCount (counts : List (PiiType × Nat)) (t : PiiType) : List (PiiType × Nat) :=
  if counts.any (fun e => e.1 = t) then
    counts.map (fun e => if e.1 = t then (e.1, e.2 + 1) else e)
  else counts ++ [(t, 1)]

/-- `findUnauthorizedPii`: detections whose `(type, normalized value)`
is not among the allowed entries, aggregated to per-type counts. -/
def findUnauthorizedPii (text : List Char) (entries : List PiiRedactionEntry) :
    List PiiValidationIssue :=
  let allowed := entries.map (fun e => (e.type, normalizePiiKey e.type e.original))
  let counts := (detectPii text).foldl
    (fun counts d =>
      if allowed.contains (d.type, normalizePiiKey d.type d.value) then counts
      else bumpCount counts d.type)
    []
  counts.map (fun e => ⟨e.2, e.1⟩)

/-- `findUnresolvedPiiPlaceholders`: placeholder-shaped tokens in the
text that are not known entries, deduplicated in first-seen order. -/
def findUnresolvedPiiPlaceholders (text : List Char) (entries : List PiiRedactionEntry) :
    List (List Char) :=
  let known := entries.map (fun e => e.placeholder)
  let found := reMatchStrings PII_PLACEHOLDER_REGEX text
  let unresolved := found.filter (fun token => ¬ known.contains token)
  unresolved.foldl (fun acc token => if acc.contains token then acc else acc ++ [token]) []

/-- `PrivacyPreparationResult`. -/
structure PrivacyPreparationResult where
  redactedPreview : List Char
  redactionEntries : List PiiRedactionEntry
  sanitizedInput : ApplicationInput

/-- The `truncate` helper of `buildPreview`. -/
def previewTruncate (text : List Char) : List Char :=
  let normalized := trimL text
  if normalized.length ≤ 1200 then normalized
  else normalized.take 1200 ++ "\n...[truncated]".data

/-- One preview section (`## <label>` then the truncated value,
`(empty)` when blank). -/
def previewSection (label value : List Char) : List Char :=
  "## ".data ++ label ++ '\n' ::
    previewTruncate (if value.isEmpty then "(empty)".data else value)

/-- `buildPreview`. -/
def buildPreview (sanitizedInput : ApplicationInput) : List Char :=
  let metricsSummary := joinWith '\n'
    [("projectImpact: ".data ++ (sanitizedInput.metricsVault.projectImpact.getD [])),
     ("latencyReduction: ".data ++ (sanitizedInput.metricsVault.latencyReduction.getD [])),
     ("costSavings: ".data ++ (sanitizedInput.metricsVault.costSavings.getD [])),
     ("usersServed: ".data ++ (sanitizedInput.metricsVault.usersServed.getD [])),
     ("uptime: ".data ++ (sanitizedInput.metricsVault.uptime.getD [])),
     ("otherMetrics: ".data ++ (sanitizedInput.metricsVault.otherMetrics.getD []))]
  joinWith2 "\n\n".data
    [previewSection "Job Description".data sanitizedInput.jobDescription,
     previewSection "Company Context".data sanitizedInput.companyInfo,
     previewSection "Resume Content".data sanitizedInput.resumeContent,
     previewSection "Cover Letter Content".data sanitizedInput.coverLetterContent,
     previewSection "Portfolio Links".data sanitizedInput.portfolioLinks,
     previewSection "Additional Context".data sanitizedInput.additionalContext,
     previewSection "Metrics Vault".data metricsSummary]

/-- Redact one optional metrics-vault value (skipped when absent or
empty, as in the source loop). -/
def redactMetricField (value : Option (List Char)) (st : RedactorState) :
    Option (List Char) × RedactorState :=
  match value with
  | none => (none, st)
  | some v =>
    if v.isEmpty then (some v, st)
    else
      let r := applyPiiRedaction v st
      (some r.1, r.2)

/-- `prepareApplicationForGemini`: no-op outside privacy mode; in
privacy mode, redact the six text fields in declaration order, then the
six metrics-vault fields. -/
def prepareApplicationForGemini (input : ApplicationInput) : PrivacyPreparationResult :=
  if !input.privacyMode then
    { sanitizedInput := input, redactionEntries := [],
      redactedPreview := buildPreview input }
  else
    let r1 := applyPiiRedaction input.jobDescription emptyRedactor
    let r2 := applyPiiRedaction input.companyInfo r1.2
    let r3 := applyPiiRedaction input.resumeContent r2.2
    let r4 := applyPiiRedaction input.coverLetterContent r3.2
    let r5 := applyPiiRedaction input.portfolioLinks r4.2
    let r6 := applyPiiRedaction input.additionalContext r5.2
    let m1 := redactMetricField input.metricsVault.projectImpact r6.2
    let m2 := redactMetricField input.metricsVault.latencyReduction m1.2
    let m3 := redactMetricField input.metricsVault.costSavings m2.2
    let m4 := redactMetricField input.metricsVault.usersServed m3.2
    let m5 := redactMetricField input.metricsVault.uptime m4.2
    let m6 := redactMetricField input.metricsVault.otherMetrics m5.2
    let sanitizedInput : ApplicationInput :=
      { input with
        jobDescription := r1.1, companyInfo := r2.1, resumeContent := r3.1,
        coverLetterContent := r4.1, portfolioLinks := r5.1,
        additionalContext := r6.1,
        metricsVault :=
          { projectImpact := m1.1, latencyReduction := m2.1, costSavings := m3.1,
            usersServed := m4.1, uptime := m5.1, otherMetrics := m6.1 } }
    { sanitizedInput := sanitizedInput,
      redactionEntries := entries m6.2,
      redactedPreview := buildPreview sanitizedInput }

end Privacy

namespace Retrieval

/-- `RetrievalSource` in `retrievalService.ts`. -/
inductive RetrievalSource where
  | jobDescription
  | resumeContent
  | coverLetterContent
  | companyInfo
  | additionalContext
deriving DecidableEq, Repr

/-- The text of a source field as written in a chunk id. -/
def sourceName : RetrievalSource → List Char
  | .jobDescription => "jobDescription".data
  | .resumeContent => "resumeContent".data
  | .coverLetterContent => "coverLetterContent".data
  | .companyInfo => "companyInfo".data
  | .additionalContext => "additionalContext".data

/-- `SOURCE_PRIORITY`. -/
def SOURCE_PRIORITY : RetrievalSource → Nat
  | .jobDescription => 5
  | .resumeContent => 4
  | .coverLetterContent => 3
  | .companyInfo => 2
  | .additionalContext => 1

/-- `RetrievalChunk` (the TS `end` field is named `endPos` here). -/
structure RetrievalChunk where
  id : List Char
  source : RetrievalSource
  text : List Char
  start : Nat
  endPos : Nat
  tokenEstimate : Nat
deriving DecidableEq, Repr

/-- `RetrievalTraceEntry`. -/
structure RetrievalTraceEntry where
  chunkId : List Char
  reason : List Char
deriving DecidableEq, Repr

/-- The five input fields consumed by the retrieval chunker
(`Pick<ApplicationInput, RetrievalSource>`). -/
structure RetrievalInput where
  jobDescription : List Char
  resumeContent : List Char
  coverLetterContent : List Char
  companyInfo : List Char
  additionalContext : List Char
deriving DecidableEq, Repr

/-- Field projection of a `RetrievalInput`. -/
def fieldOf (input : RetrievalInput) : RetrievalSource → List Char
  | .jobDescription => input.jobDescription
  | .resumeContent => input.resumeContent
  | .coverLetterContent => input.coverLetterContent
  | .companyInfo => input.companyInfo
  | .additionalContext => input.additionalContext

/-- `APPROX_CHARS_PER_TOKEN`, `DEFAULT_MAX_CHARS`, `DEFAULT_OVERLAP`,
`MIN_SPLIT_POINT`. -/
def APPROX_CHARS_PER_TOKEN : Nat := 4
def DEFAULT_MAX_CHARS : Nat := 900
def DEFAULT_OVERLAP : Nat := 140
def MIN_SPLIT_POINT : Nat := 220

/-- `normalizeText`: CRLF to LF, collapse whitespace runs, trim. -/
def normalizeText (value : List Char) : List Char :=
  trimL (collapseWs (replCRLF value))

/-- `estimateTokens = Math.max(1, Math.ceil(length / 4))`. -/
def estimateTokens (value : List Char) : Nat :=
  max 1 ((value.length + APPROX_CHARS_PER_TOKEN - 1) / APPROX_CHARS_PER_TOKEN)

/-- JS `String.prototype.lastIndexOf` (−1 when absent). -/
def lastIndexOfL (s pat : List Char) : Int :=
  match ((List.range (s.length + 1)).filter
      (fun i => (s.drop i).take pat.length = pat)).getLast? with
  | some i => (i : Int)
  | none => -1

/-- `findSplitPoint`: backtrack from `endP` to the last sentence
boundary, else newline, else whitespace, but never below
`MIN_SPLIT_POINT`. -/
def findSplitPoint (text : List Char) (start endP : Nat) : Nat :=
  let candidate := (text.drop start).take (endP - start)
  let punctuation :=
    max (lastIndexOfL candidate ". ".data)
      (max (lastIndexOfL candidate "! ".data) (lastIndexOfL candidate "? ".data))
  if (MIN_SPLIT_POINT : Int) ≤ punctuation then start + punctuation.toNat + 1
  else
    let newline := lastIndexOfL candidate "\n".data
    if (MIN_SPLIT_POINT : Int) ≤ newline then start + newline.toNat + 1
    else
      let whitespace := lastIndexOfL candidate " ".data
      if (MIN_SPLIT_POINT : Int) ≤ whitespace then start + whitespace.toNat
      else endP

/-- The chunk id `` `${source}:${index}:${start}-${end}` ``. -/
def chunkId (source : RetrievalSource) (index start endP : Nat) : List Char :=
  sourceName source ++ ':' :: natDecimal index ++ ':' :: natDecimal start ++ '-' :: natDecimal endP

/-- The body of the `while` loop of `chunkTextForRetrieval`, with
explicit fuel (the start offset strictly increases, so
`normalized.length + 1` iterations always suffice). -/
def chunkLoop (source : RetrievalSource) (normalized : List Char)
    (maxChars overlap : Nat) : Nat → Nat → Nat → List RetrievalChunk
  | 0, _, _ => []
  | fuel + 1, start, index =>
    if start < normalized.length then
      let hardEnd := min (start + maxChars) normalized.length
      let splitPoint :=
        if hardEnd < normalized.length then findSplitPoint normalized start hardEnd
        else hardEnd
      let endP := max splitPoint (min (start + MIN_SPLIT_POINT) normalized.length)
      let chunkText := trimL ((normalized.drop start).take (endP - start))
      let emitted :=
        if chunkText.length > 0 then
          [RetrievalChunk.mk (chunkId source index start endP) source chunkText start endP
            (estimateTokens chunkText)]
        else []
      let index' := if chunkText.length > 0 then index + 1 else index
      if endP ≥ normalized.length then emitted
      else emitted ++ chunkLoop source normalized maxChars overlap fuel
        (max (endP - overlap) (start + 1)) index'
    else []

/-- `chunkTextForRetrieval`. -/
def chunkTextForRetrieval (source : RetrievalSource) (text : List Char)
    (maxChars : Nat := DEFAULT_MAX_CHARS) (overlap : Nat := DEFAULT_OVERLAP) :
    List RetrievalChunk :=
  let normalized := normalizeText text
  if normalized.isEmpty then []
  else chunkLoop source normalized maxChars overlap (normalized.length + 1) 0 0

/-- `buildRetrievalChunks`: chunk the five fields in fixed source
order. -/
def buildRetrievalChunks (input : RetrievalInput)
    (maxChars : Nat := DEFAULT_MAX_CHARS) (overlap : Nat := DEFAULT_OVERLAP) :
    List RetrievalChunk :=
  [RetrievalSource.jobDescription, .resumeContent, .coverLetterContent,
   .companyInfo, .additionalContext].flatMap
    (fun source => chunkTextForRetrieval source (fieldOf input source) maxChars overlap)

/-- `scoreChunk = sourcePriority + min(tokenEstimate / 200, 1)`,
represented with the denominator 200 cleared:
`200 * p + min(e, 200) = 200 * (p + min(e / 200, 1))`, so equality and
order of these integers coincide exactly with those of the real-valued
scores.  (The JS computation is in IEEE doubles; for the token
estimates produced here the double ordering and equality agree with
the exact rational ones, since score differences are at least `1/200`,
far above the rounding error.)  Only equality and order of scores are
ever consumed (by the sort comparator), so this scaling is
observation-equivalent to the source. -/
def scoreChunk (chunk : RetrievalChunk) : Nat :=
  200 * SOURCE_PRIORITY chunk.source + min chunk.tokenEstimate 200

/-- Code-point lexicographic comparison of ids.  The source uses
`localeCompare`; ties in the sort occur only between ids sharing the
same `source:` prefix and first differing at an ASCII digit, where the
default-locale collation and the code-point order agree. -/
def lexLE : List Char → List Char → Bool
  | [], _ => true
  | _ :: _, [] => false
  | a :: as, b :: bs => if a = b then lexLE as bs else decide (a < b)

/-- The sort comparator of `selectRetrievalChunks`: descending score,
ties broken by ascending id. -/
def chunkLE (l r : RetrievalChunk) : Bool :=
  if scoreChunk l = scoreChunk r then lexLE l.id r.id
  else decide (scoreChunk r < scoreChunk l)

/-- Stable insertion of `x` after every already placed element `y` with
`le y x`. -/
def insertStable {α : Type} (le : α → α → Bool) (x : α) : List α → List α
  | [] => [x]
  | y :: ys => if le y x then y :: insertStable le x ys else x :: y :: ys

/-- Stable sort by the boolean comparator (JS `Array.prototype.sort` is
specified to be stable; insertion from the left preserves the relative
order of tied elements). -/
def stableSort {α : Type} (le : α → α → Bool) (xs : List α) : List α :=
  xs.foldl (fun acc x => insertStable le x acc) []

/-- `selectRetrievalChunks`: stable sort by the comparator, then take
the first `limit`. -/
def selectRetrievalChunks (input : RetrievalInput) (limit : Nat := 8) :
    List RetrievalChunk :=
  (stableSort chunkLE (buildRetrievalChunks input)).take limit

/-- `selectRetrievalChunkIds`. -/
def selectRetrievalChunkIds (input : RetrievalInput) (limit : Nat := 8) :
    List (List Char) :=
  (selectRetrievalChunks input limit).map (fun chunk => chunk.id)

/-- `buildRetrievalReason`. -/
def buildRetrievalReason (chunk : RetrievalChunk) : List Char :=
  "Prioritized ".data ++ sourceName chunk.source ++ " chunk (sourcePriority=".data ++
    natDecimal (SOURCE_PRIORITY chunk.source) ++ ", tokenEstimate=".data ++
    natDecimal chunk.tokenEstimate ++ ").".data

/-- `selectRetrievalTrace`. -/
def selectRetrievalTrace (input : RetrievalInput) (limit : Nat := 8) :
    List RetrievalTraceEntry :=
  (selectRetrievalChunks input limit).map
    (fun chunk => ⟨chunk.id, buildRetrievalReason chunk⟩)

end Retrieval

/-- Generic splitter: pieces of `s` between matches of the pattern
(JS `String.prototype.split` with a regex, no capture groups). -/
def reSplit (parts : List RTok) (s : List Char) : List (List Char) :=
  let step := fun (acc : List (List Char) × List Char) (seg : Seg) =>
    match seg with
    | .raw cs => (acc.1, acc.2 ++ cs)
    | .mtch _ => (acc.1 ++ [acc.2], [])
  let r := (scanSegs (s.length + 1) parts false none s).foldl step ([], [])
  r.1 ++ [r.2]

/-- Maximal runs of characters satisfying `p` (used for `tokenize`). -/
def runsOfAux (p : Char → Bool) : List Char → List Char → List (List Char)
  | [], acc => if acc.isEmpty then [] else [acc.reverse]
  | c :: cs, acc =>
    if p c then runsOfAux p cs (c :: acc)
    else if acc.isEmpty then runsOfAux p cs [] else acc.reverse :: runsOfAux p cs []

/-- Maximal runs of characters satisfying `p`. -/
def runsOf (p : Char → Bool) (s : List Char) : List (List Char) :=
  runsOfAux p s []

/-- `Number.parseInt` on a non-empty decimal digit run (the only shape
fed to it by the ATS service; JS would only diverge for runs whose
value exceeds the double range). -/
def parseIntDigits (s : List Char) : Nat :=
  s.foldl (fun acc c => 10 * acc + (c.toNat - 48)) 0

namespace Ats

/-- `KeywordCoverage` in `types.ts` (the TS field `partial` is named
`partialKw` here because of a Lean keyword clash). -/
structure KeywordCoverage where
  matched : List (List Char)
  missing : List (List Char)
  partialKw : List (List Char)
deriving DecidableEq, Repr

/-- The classification result of `classifyKeyword`
(`"matched" | "partial" | "missing"`). -/
inductive StringCoverageClass where
  | matched
  | partialMatch
  | missing
deriving DecidableEq, Repr

/-- `ResumeFactsForCoverage.experience` entries. -/
structure ExperienceForCoverage where
  employer : Option (List Char)
  role : Option (List Char)
  startDate : Option (List Char)
  endDate : Option (List Char)
  achievements : List (List Char)
deriving DecidableEq, Repr

/-- `ResumeFactsForCoverage`. -/
structure ResumeFactsForCoverage where
  skills : List (List Char)
  experience : List ExperienceForCoverage
  achievements : List (List Char)
  education : List (List Char)
  certifications : List (List Char)
deriving DecidableEq, Repr

/-- `ParsedJdRequirements`. -/
structure ParsedJdRequirements where
  hardRequirements : List (List Char)
  softRequirements : List (List Char)
  toolsTechKeywords : List (List Char)
deriving DecidableEq, Repr

/-- `AtsCoverageResult`. -/
structure AtsCoverageResult where
  keywordCoverage : KeywordCoverage
  hardRequirementsMissing : List (List Char)
deriving DecidableEq, Repr

/-- `RequirementSection`. -/
inductive RequirementSection where
  | hard
  | soft
  | neutral
deriving DecidableEq, Repr

/-- `HARD_SIGNAL_REGEX` (flag `i`): one of the hard-signal phrases
between word boundaries. -/
def HARD_SIGNAL_REGEX : RTok :=
  rcat [.wordB,
        ralts [ristr "must", ristr "required", ristr "required qualifications",
               ristr "minimum qualifications", ristr "mandatory", ristr "essential",
               ristr "need to", ristr "you have", ristr "at least", ristr "min."],
        .wordB]

/-- `SOFT_SIGNAL_REGEX` (flag `i`). -/
def SOFT_SIGNAL_REGEX : RTok :=
  rcat [.wordB,
        ralts [ristr "preferred", ristr "nice to have", ristr "bonus", ristr "plus",
               ristr "desirable", ristr "ideally", ristr "good to have"],
        .wordB]

/-- `HARD_HEADING_REGEX` (flag `i`): `must[- ]?have` is `must`, an
optional hyphen or space, `have`; the `what you will need` variant
allows the contracted form. -/
def HARD_HEADING_REGEX : RTok :=
  rcat [.wordB,
        ralts [ristr "requirements", ristr "required qualifications",
               ristr "minimum qualifications",
               rcat [ristr "must", ropt (.cls (fun c => c = '-' || c = ' ')), ristr "have"],
               rcat [ristr "what you",
                     ralts [rcat [rchar (Char.ofNat 39), ristr "ll"], ristr " will"],
                     ristr " need"],
               ristr "qualifications"],
        .wordB]

/-- `SOFT_HEADING_REGEX` (flag `i`). -/
def SOFT_HEADING_REGEX : RTok :=
  rcat [.wordB,
        ralts [ristr "preferred qualifications", ristr "nice to have",
               ristr "bonus points", ristr "plus", ristr "desirable",
               ristr "good to have"],
        .wordB]

/-- `YEARS_REGEX` (flag `i`), split so that the digit capture is the
first piece. -/
def YEARS_PARTS : List RTok :=
  [rplus rdigit,
   rcat [rstar rws, ropt (rchar '+'), rstar rws,
         ralts [ristr "years", ristr "year", ristr "yrs", ristr "yr"],
         .wordB]]

/-- `STOPWORDS`. -/
def STOPWORDS : List (List Char) :=
  ["a", "an", "and", "are", "as", "at", "be", "by", "for", "from", "in", "is",
   "it", "of", "on", "or", "our", "that", "the", "their", "this", "to", "we",
   "with", "you", "your", "will", "ability", "experience", "knowledge",
   "strong", "excellent", "skills"].map String.data

/-- `KNOWN_TECH_KEYWORDS`. -/
def KNOWN_TECH_KEYWORDS : List (List Char) :=
  ["python", "sql", "r", "scala", "java", "javascript", "typescript", "react",
   "node.js", "node", "pandas", "numpy", "scikit-learn", "sklearn",
   "tensorflow", "pytorch", "keras", "spark", "hadoop", "airflow", "dbt",
   "docker", "kubernetes", "aws", "gcp", "azure", "snowflake", "databricks",
   "postgresql", "postgres", "mysql", "mongodb", "redis", "kafka", "tableau",
   "power bi", "looker", "git", "linux", "bash", "terraform", "ansible",
   "ci/cd", "ml", "ai", "llm", "rag", "nlp", "computer vision", "langchain",
   "llamaindex", "rest api", "graphql", "c++", "c#", ".net"].map String.data

/-- `SHORT_TECH_ALLOWLIST`. -/
def SHORT_TECH_ALLOWLIST : List (List Char) :=
  ["ai", "ml", "nlp", "llm", "ci", "cd", "r"].map String.data

/-- `normalizeSpace`: collapse whitespace runs and trim. -/
def normalizeSpace (value : List Char) : List Char := trimL (collapseWs value)

/-- `normalizeForMatch`: `normalizeSpace` plus lower-casing. -/
def normalizeForMatch (value : List Char) : List Char := toLowerL (normalizeSpace value)

/-- `normalizeKeyword`: `normalizeForMatch` plus a second (idempotent)
whitespace collapse. -/
def normalizeKeyword (value : List Char) : List Char :=
  collapseWs (normalizeForMatch value)

/-- `stripBulletPrefix`: drop the leading run of whitespace, hyphens,
asterisks and bullets, then trim. -/
def stripBulletPrefix (line : List Char) : List Char :=
  trimL (line.dropWhile (fun c => isJsWs c || c = '-' || c = '*' || c = '\u2022'))

/-- `dedupePreserveOrder`: deduplicate by `normalizeForMatch` equality,
dropping entries whose canonical form is empty, preserving first-seen
order. -/
def dedupePreserveOrder (items : List (List Char)) : List (List Char) :=
  (items.foldl
    (fun (acc : List (List Char) × List (List Char)) item =>
      let canonical := normalizeForMatch item
      if canonical.isEmpty || acc.1.contains canonical then acc
      else (acc.1 ++ [canonical], acc.2 ++ [item]))
    ([], [])).2

/-- Character class of `tokenize` runs (`[a-z0-9+#.]` on lower-cased
text). -/
def tokenC (c : Char) : Bool :=
  ('a' ≤ c && c ≤ 'z') || c.isDigit || c = '+' || c = '#' || c = '.'

/-- `tokenize`. -/
def tokenize (value : List Char) : List (List Char) :=
  runsOf tokenC (toLowerL value)

/-- `significantTokens`. -/
def significantTokens (value : List Char) : List (List Char) :=
  (tokenize value).filter
    (fun token =>
      SHORT_TECH_ALLOWLIST.contains token ||
      (3 ≤ token.length && ¬ STOPWORDS.contains token))

/-- `splitLineIntoClauses`: split on `;` and `|`, normalize, drop
empties. -/
def splitLineIntoClauses (line : List Char) : List (List Char) :=
  ((reSplit [.cls (fun c => c = ';' || c = '|')] line).map normalizeSpace).filter
    (fun part => ¬ part.isEmpty)

/-- `detectSectionHeading`: strip a trailing run of `:` and `-`,
normalize, and test the soft then the hard heading pattern. -/
def detectSectionHeading (line : List Char) : Option RequirementSection :=
  let clean := normalizeForMatch
    ((line.reverse.dropWhile (fun c => c = ':' || c = '-')).reverse)
  if reTest [SOFT_HEADING_REGEX] clean then some .soft
  else if reTest [HARD_HEADING_REGEX] clean then some .hard
  else none

/-- Case-insensitive (ASCII) whole-word occurrence used by
`isWholeWordMatch`: the dynamically built pattern
`(^|[^a-z0-9+#.])<keyword>([^a-z0-9+#.]|$)` with flag `i` tests whether
the keyword occurs with non-token characters (or the text ends) on both
sides. -/
def kwBoundaryC (c : Char) : Bool :=
  ¬ (c.isAlpha || c.isDigit || c = '+' || c = '#' || c = '.')

/-- Case-insensitive literal prefix test returning the remainder. -/
def dropCi : List Char → List Char → Option (List Char)
  | [], s => some s
  | _, [] => none
  | k :: ks, c :: cs => if k.toLower = c.toLower then dropCi ks cs else none

/-- Scan for a whole-word occurrence; `prevOk` says whether the
position is the text start or preceded by a boundary character. -/
def wholeWordAux (kw : List Char) : Bool → List Char → Bool
  | prevOk, s =>
    (prevOk &&
      match dropCi kw s with
      | some rest => rest.isEmpty || kwBoundaryC rest.head!
      | none => false) ||
    (match s with
     | [] => false
     | c :: cs => wholeWordAux kw (kwBoundaryC c) cs)

/-- `isWholeWordMatch`. -/
def isWholeWordMatch (keyword text : List Char) : Bool :=
  wholeWordAux (toLowerL keyword) true text

/-- The acronym pattern of `extractTechKeywords`:
`\b[A-Z][A-Z0-9+#.-]{1,12}\b` (flag `g`, case-sensitive). -/
def ACRONYM_REGEX : RTok :=
  rcat [.wordB, .cls (fun c => 'A' ≤ c && c ≤ 'Z'),
        .rep (.cls (fun c => ('A' ≤ c && c ≤ 'Z') || c.isDigit || c = '+' ||
          c = '#' || c = '.' || c = '-')) 1 (some 12),
        .wordB]

/-- `extractTechKeywords`: fixed vocabulary (substring test for
multi-word keywords, whole-word test otherwise) plus ALL-CAPS acronym
tokens, deduplicated. -/
def extractTechKeywords (jobDescription : List Char) : List (List Char) :=
  let normalizedJd := normalizeForMatch jobDescription
  let found := KNOWN_TECH_KEYWORDS.foldl
    (fun found keyword =>
      let keywordLower := toLowerL keyword
      if keywordLower.contains ' ' then
        if includesL normalizedJd keywordLower then found ++ [keyword] else found
      else if isWholeWordMatch keywordLower normalizedJd then found ++ [keyword]
      else found)
    []
  let acronyms := (reMatchStrings ACRONYM_REGEX jobDescription).filter
    (fun acronym => 2 ≤ acronym.length && acronym.any (fun c => 'A' ≤ c && c ≤ 'Z'))
  dedupePreserveOrder (found ++ acronyms)

/-- `parseJdRequirements`. -/
def parseJdRequirements (jobDescription : List Char) : ParsedJdRequirements :=
  let lines := ((reSplit [rcat [ropt (rchar '\r'), rchar '\n']] jobDescription).map
    (fun line => stripBulletPrefix (normalizeSpace line))).filter
    (fun line => ¬ line.isEmpty)
  let step := fun (acc : List (List Char) × List (List Char) × RequirementSection)
      (line : List Char) =>
    match detectSectionHeading line with
    | some heading => (acc.1, acc.2.1, heading)
    | none =>
      (splitLineIntoClauses line).foldl
        (fun (acc : List (List Char) × List (List Char) × RequirementSection) clause =>
          if acc.2.2 = .hard ||
              (reTest [HARD_SIGNAL_REGEX] clause && ¬ reTest [SOFT_SIGNAL_REGEX] clause) then
            (acc.1 ++ [clause], acc.2.1, acc.2.2)
          else if acc.2.2 = .soft || reTest [SOFT_SIGNAL_REGEX] clause then
            (acc.1, acc.2.1 ++ [clause], acc.2.2)
          else acc)
        acc
  let fromLines := lines.foldl step ([], [], RequirementSection.neutral)
  let sentences := ((reSplit
      [rcat [.cls (fun c => c = '.' || c = '!' || c = '?'), rplus rws]]
      jobDescription).map
    (fun sentence => stripBulletPrefix (normalizeSpace sentence))).filter
    (fun sentence => ¬ sentence.isEmpty)
  let withFallback := sentences.foldl
    (fun (acc : List (List Char) × List (List Char)) sentence =>
      if reTest [HARD_SIGNAL_REGEX] sentence && ¬ reTest [SOFT_SIGNAL_REGEX] sentence then
        (acc.1 ++ [sentence], acc.2)
      else if reTest [SOFT_SIGNAL_REGEX] sentence then (acc.1, acc.2 ++ [sentence])
      else acc)
    (fromLines.1, fromLines.2.1)
  { hardRequirements := dedupePreserveOrder withFallback.1,
    softRequirements := dedupePreserveOrder withFallback.2,
    toolsTechKeywords := dedupePreserveOrder (extractTechKeywords jobDescription) }

/-- `ResumeCorpus`: the token collection is a JS `Set`, modelled as the
token list (only membership and existential queries are performed on
it, so duplicates are irrelevant). -/
structure ResumeCorpus where
  rawText : List Char
  normalizedText : List Char
  tokenSet : List (List Char)
deriving Repr

/-- `buildResumeCorpus`. -/
def buildResumeCorpus (resumeFacts : ResumeFactsForCoverage) : ResumeCorpus :=
  let chunks :=
    resumeFacts.skills ++ resumeFacts.achievements ++ resumeFacts.education ++
    resumeFacts.certifications ++
    resumeFacts.experience.flatMap
      (fun experience =>
        (match experience.employer with | some e => [e] | none => []) ++
        (match experience.role with | some r => [r] | none => []) ++
        experience.achievements)
  let rawText := normalizeSpace (joinSpace chunks)
  let normalizedText := normalizeForMatch rawText
  { rawText := rawText, normalizedText := normalizedText,
    tokenSet := tokenize normalizedText }

/-- `keywordTokenOverlapScore`, kept as the fraction
`(matched, total)`; the score is `matched / total` (0 when no
significant tokens).  The comparisons against the thresholds are done
with denominators cleared (`matched / total >= 1/2` iff
`2 * matched >= total` for `total > 0`), which agrees exactly with the
JS double comparison: the real ratio is never within double rounding
error of the threshold without being equal to it. -/
def keywordTokenOverlapScore (keyword : List Char) (tokenSet : List (List Char)) :
    Nat × Nat :=
  let keywordTokens := significantTokens keyword
  if keywordTokens.isEmpty then (0, 0)
  else
    let matched := (keywordTokens.filter
      (fun token =>
        tokenSet.contains token ||
        (4 ≤ token.length &&
          tokenSet.any (fun resumeToken =>
            includesL resumeToken token || includesL token resumeToken)))).length
    (matched, keywordTokens.length)

/-- `classifyKeyword`. -/
def classifyKeyword (keyword : List Char) (corpus : ResumeCorpus) :
    StringCoverageClass :=
  let normalizedKeyword := normalizeKeyword keyword
  if normalizedKeyword.isEmpty then .missing
  else if normalizedKeyword.length ≤ 2 &&
      ¬ SHORT_TECH_ALLOWLIST.contains normalizedKeyword then .missing
  else if normalizedKeyword.contains ' ' then
    if includesL corpus.normalizedText normalizedKeyword then .matched
    else
      let overlap := keywordTokenOverlapScore normalizedKeyword corpus.tokenSet
      if 0 < overlap.2 ∧ overlap.2 ≤ 2 * overlap.1 then .partialMatch
      else .missing
  else if isWholeWordMatch normalizedKeyword corpus.normalizedText then .matched
  else if 4 ≤ normalizedKeyword.length &&
      corpus.tokenSet.any (fun token =>
        includesL token normalizedKeyword || includesL normalizedKeyword token) then
    .partialMatch
  else .missing

/-- `extractMaxYears`: the largest integer captured by the years
pattern anywhere in the text (`null` when absent). -/
def extractMaxYears (value : List Char) : Option Nat :=
  let values := (reMatches YEARS_PARTS value).filterMap
    (fun pieces => pieces.head?.map parseIntDigits)
  values.max?

/-- `hardRequirementSatisfied`. -/
def hardRequirementSatisfied (requirement : List Char) (corpus : ResumeCorpus)
    (matchedKeywords : List (List Char)) : Bool :=
  let normalizedRequirement := normalizeForMatch requirement
  if matchedKeywords.any (fun keyword => includesL normalizedRequirement keyword) then true
  else
    let tokens := significantTokens normalizedRequirement
    if ¬ tokens.isEmpty &&
        6 * tokens.length ≤
          10 * (tokens.filter (fun token => corpus.tokenSet.contains token)).length then true
    else
      match (reMatches YEARS_PARTS normalizedRequirement).head?.bind
          (fun pieces => pieces.head?.map parseIntDigits) with
      | some requiredYears =>
        match extractMaxYears corpus.rawText with
        | none => false
        | some resumeYears => requiredYears ≤ resumeYears
      | none => false

/-- `computeAtsCoverage`. -/
def computeAtsCoverage (jobDescription : List Char)
    (resumeFacts : ResumeFactsForCoverage) : AtsCoverageResult :=
  let parsedJd := parseJdRequirements jobDescription
  let corpus := buildResumeCorpus resumeFacts
  let classified := parsedJd.toolsTechKeywords.foldl
    (fun (acc : List (List Char) × List (List Char) × List (List Char)) keyword =>
      match classifyKeyword keyword corpus with
      | .matched => (acc.1 ++ [keyword], acc.2.1, acc.2.2)
      | .partialMatch => (acc.1, acc.2.1 ++ [keyword], acc.2.2)
      | .missing => (acc.1, acc.2.1, acc.2.2 ++ [keyword]))
    ([], [], [])
  let matched := classified.1
  let partialKw := classified.2.1
  let missing := classified.2.2
  let matchedKeywordSet := matched.map normalizeForMatch
  let hardRequirementsMissing := parsedJd.hardRequirements.filter
    (fun requirement => ¬ hardRequirementSatisfied requirement corpus matchedKeywordSet)
  { keywordCoverage :=
      { matched := dedupePreserveOrder matched,
        missing := dedupePreserveOrder missing,
        partialKw := dedupePreserveOrder partialKw },
    hardRequirementsMissing := dedupePreserveOrder hardRequirementsMissing }

end Ats

/-- A JSON value (the parsed stage responses; JS numbers are modelled
as rationals, which is exact for every finite decimal literal). -/
inductive Json where
  | null
  | bool (b : Bool)
  | num (q : ℚ)
  | str (s : List Char)
  | arr (items : List Json)
  | obj (fields : List (List Char × Json))

namespace Gemini

/-- Size and tier constants of `geminiService.ts`. -/
def SIMPLE_DOC_CHAR_LIMIT : Nat := 3000
def COMPLEX_DOC_CHAR_LIMIT : Nat := 9000
def COMPLEX_TOTAL_CHAR_LIMIT : Nat := 18000
def APPROX_CHARS_PER_TOKEN : Nat := 4
def COMPLEX_TOKEN_LIMIT : Nat := 4500
def MAX_RETRY_ATTEMPTS : Nat := 3
def BASE_BACKOFF_MS : Nat := 400
def MAX_EVIDENCE_WORDS : Nat := 20

/-- `AnalysisTier`. -/
inductive AnalysisTier where
  | SIMPLE
  | MEDIUM
  | COMPLEX
deriving DecidableEq, Repr

/-- The model name of a tier (`TIER_CONFIG[tier].model`). -/
def tierModel : AnalysisTier → List Char
  | .SIMPLE => "gemini-2.5-flash".data
  | .MEDIUM => "gemini-2.5-pro".data
  | .COMPLEX => "gemini-3-pro-preview".data

/-- The display name of a tier. -/
def tierName : AnalysisTier → List Char
  | .SIMPLE => "SIMPLE".data
  | .MEDIUM => "MEDIUM".data
  | .COMPLEX => "COMPLEX".data

/-- `estimateTokensFromChars = Math.ceil(chars / 4)`. -/
def estimateTokensFromChars (chars : Nat) : Nat :=
  (chars + APPROX_CHARS_PER_TOKEN - 1) / APPROX_CHARS_PER_TOKEN

/-- `selectTier`: COMPLEX on explicit deep mode, deep-intent regex
match or length thresholds; otherwise SIMPLE needs short documents
(with a stricter bound plus a token ceiling in fast mode), else
MEDIUM. -/
def selectTier (input : ApplicationInput) : AnalysisTier :=
  let jdChars := input.jobDescription.length
  let resumeChars := input.resumeContent.length
  let coverChars := input.coverLetterContent.length
  let companyChars := input.companyInfo.length
  let contextChars := input.additionalContext.length
  let metricsChars := (joinSpace (Metrics.vaultValues input.metricsVault)).length
  let totalChars := jdChars + resumeChars + coverChars + companyChars +
    contextChars + metricsChars
  let estimatedTokens := estimateTokensFromChars totalChars
  let isSimpleCandidate :=
    jdChars < SIMPLE_DOC_CHAR_LIMIT && resumeChars < SIMPLE_DOC_CHAR_LIMIT
  let isFastSimpleCandidate :=
    jdChars < 4500 && resumeChars < 4500 && estimatedTokens < 3200
  let isComplexByLength :=
    COMPLEX_DOC_CHAR_LIMIT < jdChars || COMPLEX_DOC_CHAR_LIMIT < resumeChars ||
    COMPLEX_TOTAL_CHAR_LIMIT < totalChars || COMPLEX_TOKEN_LIMIT < estimatedTokens
  let deepRequestedByText := reTest [DEEP_ANALYSIS_REGEX]
    (input.additionalContext ++ '\n' :: input.companyInfo ++ '\n' :: input.jobDescription)
  if input.analysisMode = .deep || deepRequestedByText || isComplexByLength then
    .COMPLEX
  else if input.analysisMode = .fast then
    (if isFastSimpleCandidate then .SIMPLE else .MEDIUM)
  else if isSimpleCandidate then .SIMPLE
  else .MEDIUM

/-- `tierFromMode`. -/
def tierFromMode (analysisMode : AnalysisMode) : AnalysisTier :=
  match analysisMode with
  | .deep => .COMPLEX
  | .fast => .SIMPLE
  | .balanced => .MEDIUM

/-- The error value thrown by a generator call, as inspected by
`isTransientError`: `status` is present exactly when the JS field is a
number, likewise `code`; `message` is the string
`String(error?.message ?? error)`. -/
structure JsError where
  status : Option Int := none
  code : Option Int := none
  message : List Char := []
deriving DecidableEq, Repr

/-- `TRANSIENT_STATUS_CODES`. -/
def TRANSIENT_STATUS_CODES : List Int := [408, 409, 425, 429, 500, 502, 503, 504]

/-- `isTransientError`: a transient HTTP status (from `status`, else
`code`), or one of the transient-message heuristics. -/
def isTransientError (error : JsError) : Bool :=
  let status : Option Int :=
    match error.status with
    | some s => some s
    | none => error.code
  (match status with
   | some s => TRANSIENT_STATUS_CODES.contains s
   | none => false) ||
  (let message := toLowerL error.message
   includesL message "timeout".data ||
   includesL message "timed out".data ||
   includesL message "rate limit".data ||
   includesL message "too many requests".data ||
   includesL message "temporar".data ||
   includesL message "network".data ||
   includesL message "econnreset".data ||
   includesL message "503".data ||
   includesL message "502".data ||
   includesL message "500".data ||
   includesL message "429".data)

/-- The observable outcome of a `withRetry` run: the returned value or
thrown error, the number of operation invocations, and the list of
backoff sleeps (in ms, in order). -/
structure RetryOutcome (α : Type) where
  result : Except JsError α
  calls : Nat
  sleeps : List Nat

/-- The retry loop of `withRetry`.  `op n` is the outcome of the `n`-th
invocation of the wrapped operation (1-based); `fuel` counts the
remaining loop iterations (`maxAttempts` at entry, so the fall-through
case, which models the unreachable final `throw`, only occurs for
`maxAttempts = 0`). -/
def withRetryAux {α : Type} (op : Nat → Except JsError α) (maxAttempts : Nat) :
    Nat → Nat → List Nat → RetryOutcome α
  | 0, attempt, sleeps =>
    { result := .error { message := "failed after all attempts".data },
      calls := attempt - 1, sleeps := sleeps }
  | fuel + 1, attempt, sleeps =>
    match op attempt with
    | .ok value => { result := .ok value, calls := attempt, sleeps := sleeps }
    | .error error =>
      let shouldRetry := decide (attempt < maxAttempts) && isTransientError error
      if !shouldRetry then { result := .error error, calls := attempt, sleeps := sleeps }
      else
        withRetryAux op maxAttempts fuel (attempt + 1)
          (sleeps ++ [BASE_BACKOFF_MS * 2 ^ (attempt - 1)])

/-- `withRetry` with the default `MAX_RETRY_ATTEMPTS`. -/
def withRetry {α : Type} (op : Nat → Except JsError α)
    (maxAttempts : Nat := MAX_RETRY_ATTEMPTS) : RetryOutcome α :=
  withRetryAux op maxAttempts maxAttempts 1 []

/-- `asRecord`: the fields of an object value, else the empty record. -/
def asRecord (value : Json) : List (List Char × Json) :=
  match value with
  | .obj fields => fields
  | _ => []

/-- Field lookup on a record; an absent field behaves like `undefined`,
which every normalizer below treats exactly like a non-matching type,
so it is mapped to `Json.null`. -/
def getF (fields : List (List Char × Json)) (name : String) : Json :=
  match fields.find? (fun f => f.1 = name.data) with
  | some f => f.2
  | none => .null

/-- `asArray`. -/
def asArray (value : Json) : List Json :=
  match value with
  | .arr items => items
  | _ => []

/-- `asNullableString`: trimmed non-empty strings only. -/
def asNullableString (value : Json) : Option (List Char) :=
  match value with
  | .str s => let trimmed := trimL s; if trimmed.isEmpty then none else some trimmed
  | _ => none

/-- `asStringArray`. -/
def asStringArray (value : Json) : List (List Char) :=
  ((asArray value).map asNullableString).filterMap id

/-- `clampSnippetWords`: `split(/\s+/).filter(Boolean).slice(0, 20).join(" ")`
(the split-and-filter is exactly the maximal-word decomposition
`wsWords`). -/
def clampSnippetWords (value : List Char) : List Char :=
  joinSpace ((wsWords value).take MAX_EVIDENCE_WORDS)

/-- `asSnippetArray`. -/
def asSnippetArray (value : Json) : List (List Char) :=
  (((asArray value).map asNullableString).filterMap id).map clampSnippetWords

/-- `asNullableNumber` (every modelled number is finite). -/
def asNullableNumber (value : Json) : Option ℚ :=
  match value with
  | .num q => some q
  | _ => none

/-- Detected language values. -/
inductive Language where
  | English
  | German
deriving DecidableEq, Repr

/-- `normalizeLanguage`. -/
def normalizeLanguage (value : Json) : Option Language :=
  match value with
  | .str s => if s = "English".data then some .English
      else if s = "German".data then some .German else none
  | _ => none

/-- Gap categories. -/
inductive GapCategory where
  | critical
  | optional
deriving DecidableEq, Repr

/-- `normalizeGapCategory`: anything but the exact string `optional`
defaults to `critical` (the safer option). -/
def normalizeGapCategory (value : Json) : GapCategory :=
  match value with
  | .str s => if s = "optional".data then .optional else .critical
  | _ => .critical

/-- `ImprovementEvidence`. -/
structure ImprovementEvidence where
  resumeQuotes : List (List Char)
  jdQuotes : List (List Char)
  missingKeywords : List (List Char)
deriving DecidableEq, Repr

/-- `normalizeEvidence`. -/
def normalizeEvidence (value : Json) : ImprovementEvidence :=
  let evidence := asRecord value
  { resumeQuotes := asSnippetArray (getF evidence "resumeQuotes"),
    jdQuotes := asSnippetArray (getF evidence "jdQuotes"),
    missingKeywords := asSnippetArray (getF evidence "missingKeywords") }

/-- `GapItem`. -/
structure GapItem where
  point : Option (List Char)
  category : GapCategory
  impact : Option (List Char)
  evidence : ImprovementEvidence
deriving DecidableEq, Repr

/-- `ScoreMatchResult`. -/
structure ScoreMatchResult where
  baselineScore : Option ℚ
  enhancedScore : Option ℚ
  jobFitScore : Option ℚ
  explanation : Option (List Char)
  overallFeedback : Option (List Char)
  gapAnalysis : List GapItem
  portfolioAdvice : Option (List Char)
  recruiterNotes : Option (List Char)
  confidenceNotes : List (List Char)
deriving DecidableEq, Repr

/-- `normalizeScoreMatch`. -/
def normalizeScoreMatch (raw : Json) : ScoreMatchResult :=
  let root := asRecord raw
  { baselineScore := asNullableNumber (getF root "baselineScore"),
    enhancedScore := asNullableNumber (getF root "enhancedScore"),
    jobFitScore := asNullableNumber (getF root "jobFitScore"),
    explanation := asNullableString (getF root "explanation"),
    overallFeedback := asNullableString (getF root "overallFeedback"),
    gapAnalysis := (asArray (getF root "gapAnalysis")).map
      (fun item =>
        let gap := asRecord item
        { point := asNullableString (getF gap "point"),
          category := normalizeGapCategory (getF gap "category"),
          impact := asNullableString (getF gap "impact"),
          evidence := normalizeEvidence (getF gap "evidence") }),
    portfolioAdvice := asNullableString (getF root "portfolioAdvice"),
    recruiterNotes := asNullableString (getF root "recruiterNotes"),
    confidenceNotes := asStringArray (getF root "confidenceNotes") }

/-- `ExtractedExperience` (same shape as the coverage entries). -/
def ExtractedExperience := Ats.ExperienceForCoverage

/-- The `jdFacts` part of `ExtractFactsResult`. -/
structure JdFacts where
  roleTitle : Option (List Char)
  companyName : Option (List Char)
  mustHaveSkills : List (List Char)
  niceToHaveSkills : List (List Char)
  responsibilities : List (List Char)
  requiredExperienceYears : Option ℚ
  keywords : List (List Char)
deriving DecidableEq, Repr

/-- The `resumeFacts` part of `ExtractFactsResult`. -/
structure ResumeFacts where
  candidateName : Option (List Char)
  skills : List (List Char)
  experience : List Ats.ExperienceForCoverage
  achievements : List (List Char)
  education : List (List Char)
  certifications : List (List Char)
deriving DecidableEq, Repr

/-- The structural restriction of `resumeFacts` consumed by
`computeAtsCoverage` (TS passes the same object; the coverage service
reads only these fields). -/
def ResumeFacts.toCoverage (facts : ResumeFacts) : Ats.ResumeFactsForCoverage :=
  { skills := facts.skills, experience := facts.experience,
    achievements := facts.achievements, education := facts.education,
    certifications := facts.certifications }

/-- The `coverLetterFacts` part of `ExtractFactsResult`. -/
structure CoverLetterFacts where
  keyClaims : List (List Char)
  motivations : List (List Char)
deriving DecidableEq, Repr

/-- `ExtractFactsResult`. -/
structure ExtractFactsResult where
  languageDetected : Option Language
  jdFacts : JdFacts
  resumeFacts : ResumeFacts
  coverLetterFacts : CoverLetterFacts
  explicitUserAchievements : List (List Char)
  missingData : List (List Char)
deriving DecidableEq, Repr

/-- `normalizeExtractFacts`. -/
def normalizeExtractFacts (raw : Json) : ExtractFactsResult :=
  let root := asRecord raw
  let jdFacts := asRecord (getF root "jdFacts")
  let resumeFacts := asRecord (getF root "resumeFacts")
  let coverLetterFacts := asRecord (getF root "coverLetterFacts")
  { languageDetected := normalizeLanguage (getF root "languageDetected"),
    jdFacts :=
      { roleTitle := asNullableString (getF jdFacts "roleTitle"),
        companyName := asNullableString (getF jdFacts "companyName"),
        mustHaveSkills := asStringArray (getF jdFacts "mustHaveSkills"),
        niceToHaveSkills := asStringArray (getF jdFacts "niceToHaveSkills"),
        responsibilities := asStringArray (getF jdFacts "responsibilities"),
        requiredExperienceYears := asNullableNumber (getF jdFacts "requiredExperienceYears"),
        keywords := asStringArray (getF jdFacts "keywords") },
    resumeFacts :=
      { candidateName := asNullableString (getF resumeFacts "candidateName"),
        skills := asStringArray (getF resumeFacts "skills"),
        experience := (asArray (getF resumeFacts "experience")).map
          (fun item =>
            let entry := asRecord item
            { employer := asNullableString (getF entry "employer"),
              role := asNullableString (getF entry "role"),
              startDate := asNullableString (getF entry "startDate"),
              endDate := asNullableString (getF entry "endDate"),
              achievements := asStringArray (getF entry "achievements") }),
        achievements := asStringArray (getF resumeFacts "achievements"),
        education := asStringArray (getF resumeFacts "education"),
        certifications := asStringArray (getF resumeFacts "certifications") },
    coverLetterFacts :=
      { keyClaims := asStringArray (getF coverLetterFacts "keyClaims"),
        motivations := asStringArray (getF coverLetterFacts "motivations") },
    explicitUserAchievements := asStringArray (getF root "explicitUserAchievements"),
    missingData := asStringArray (getF root "missingData") }

/-- `normalizeRewriteDocs`. -/
def normalizeRewriteDocs (raw : Json) : RewriteDocsResult :=
  let root := asRecord raw
  { optimizedResume := asNullableString (getF root "optimizedResume"),
    optimizedCoverLetter := asNullableString (getF root "optimizedCoverLetter"),
    rewriteNotes := asNullableString (getF root "rewriteNotes") }

/-- `normalizeForMatch` of `geminiService.ts` (identical recipe to the
ATS one): collapse whitespace, trim, lower-case. -/
def normalizeForMatch (value : List Char) : List Char :=
  toLowerL (trimL (collapseWs value))

/-- `existsInSource`: case- and whitespace-insensitive substring
containment, false on empty snippet or source. -/
def existsInSource (snippet source : List Char) : Bool :=
  if snippet.isEmpty || source.isEmpty then false
  else includesL (normalizeForMatch source) (normalizeForMatch snippet)

/-- The source texts consumed by the score stage
(`Pick<ApplicationInput, "jobDescription" | "resumeContent" | "coverLetterContent">`). -/
structure SourceText where
  jobDescription : List Char
  resumeContent : List Char
  coverLetterContent : List Char
deriving DecidableEq, Repr

/-- `enforceEvidenceFromSource`: drop every quote or keyword that is
not found in its corresponding source text. -/
def enforceEvidenceFromSource (scoring : ScoreMatchResult) (sourceText : SourceText) :
    ScoreMatchResult :=
  let resumeCorpus := sourceText.resumeContent ++ '\n' :: sourceText.coverLetterContent
  { scoring with
    gapAnalysis := scoring.gapAnalysis.map
      (fun gap =>
        { gap with
          evidence :=
            { resumeQuotes := gap.evidence.resumeQuotes.filter
                (fun quote => existsInSource quote resumeCorpus),
              jdQuotes := gap.evidence.jdQuotes.filter
                (fun quote => existsInSource quote sourceText.jobDescription),
              missingKeywords := gap.evidence.missingKeywords.filter
                (fun keyword => existsInSource keyword sourceText.jobDescription) } }) }

/-! ### JSON serialization for the stage prompts

`JSON.stringify` with object keys in insertion (declaration) order.
Number printing is exact for integers and finite decimal fractions
(all numbers arising here); values that JS would print in exponent
notation are out of scope. -/

/-- Lower-case hexadecimal digit. -/
def hexDigit (d : Nat) : Char :=
  if d < 10 then Char.ofNat (48 + d) else Char.ofNat (87 + d)

/-- JSON string escaping of one character. -/
def jsonEscapeChar (c : Char) : List Char :=
  if c = '"' then ['\\', '"']
  else if c = '\\' then ['\\', '\\']
  else if c = '\n' then ['\\', 'n']
  else if c = '\r' then ['\\', 'r']
  else if c = '\t' then ['\\', 't']
  else if c = '\u0008' then ['\\', 'b']
  else if c = '\u000c' then ['\\', 'f']
  else if c.toNat < 32 then
    ['\\', 'u', '0', '0', hexDigit (c.toNat / 16), hexDigit (c.toNat % 16)]
  else [c]

/-- JSON string literal. -/
def jsonStr (s : List Char) : List Char :=
  '"' :: s.flatMap jsonEscapeChar ++ ['"']

/-- Decimal representation of a rational whose reduced denominator
divides a power of ten (the JS printing of such numbers). -/
def ratDecimalRepr (q : ℚ) : List Char :=
  let n := q.num.natAbs
  let sign : List Char := if q.num < 0 then ['-'] else []
  if q.den = 1 then sign ++ natDecimal n
  else
    match (List.range 40).find? (fun k => 10 ^ k % q.den = 0) with
    | some k =>
      let scaled := n * (10 ^ k / q.den)
      let ip := scaled / 10 ^ k
      let fp := natDecimal (scaled % 10 ^ k)
      sign ++ natDecimal ip ++ '.' ::
        (List.replicate (k - fp.length) '0' ++ fp)
    | none => sign ++ natDecimal n ++ '/' :: natDecimal q.den

/-- JSON of a nullable string. -/
def jsonOptStr (v : Option (List Char)) : List Char :=
  match v with
  | none => "null".data
  | some s => jsonStr s

/-- JSON of a nullable number. -/
def jsonOptNum (v : Option ℚ) : List Char :=
  match v with
  | none => "null".data
  | some q => ratDecimalRepr q

/-- JSON array of strings. -/
def jsonStrArr (xs : List (List Char)) : List Char :=
  '[' :: joinWith ',' (xs.map jsonStr) ++ [']']

/-- JSON object from already serialized members. -/
def jsonObj (fields : List (List Char × List Char)) : List Char :=
  '{' :: joinWith ',' (fields.map (fun f => jsonStr f.1 ++ ':' :: f.2)) ++ ['}']

/-- JSON of an optional language. -/
def jsonLanguage (v : Option Language) : List Char :=
  match v with
  | none => "null".data
  | some .English => jsonStr "English".data
  | some .German => jsonStr "German".data

/-- JSON of one extracted experience entry. -/
def jsonExperience (e : Ats.ExperienceForCoverage) : List Char :=
  jsonObj
    [("employer".data, jsonOptStr e.employer),
     ("role".data, jsonOptStr e.role),
     ("startDate".data, jsonOptStr e.startDate),
     ("endDate".data, jsonOptStr e.endDate),
     ("achievements".data, jsonStrArr e.achievements)]

/-- JSON of an `ExtractFactsResult`. -/
def jsonExtractFacts (x : ExtractFactsResult) : List Char :=
  jsonObj
    [("languageDetected".data, jsonLanguage x.languageDetected),
     ("jdFacts".data, jsonObj
       [("roleTitle".data, jsonOptStr x.jdFacts.roleTitle),
        ("companyName".data, jsonOptStr x.jdFacts.companyName),
        ("mustHaveSkills".data, jsonStrArr x.jdFacts.mustHaveSkills),
        ("niceToHaveSkills".data, jsonStrArr x.jdFacts.niceToHaveSkills),
        ("responsibilities".data, jsonStrArr x.jdFacts.responsibilities),
        ("requiredExperienceYears".data, jsonOptNum x.jdFacts.requiredExperienceYears),
        ("keywords".data, jsonStrArr x.jdFacts.keywords)]),
     ("resumeFacts".data, jsonObj
       [("candidateName".data, jsonOptStr x.resumeFacts.candidateName),
        ("skills".data, jsonStrArr x.resumeFacts.skills),
        ("experience".data,
          '[' :: joinWith ',' (x.resumeFacts.experience.map jsonExperience) ++ [']']),
        ("achievements".data, jsonStrArr x.resumeFacts.achievements),
        ("education".data, jsonStrArr x.resumeFacts.education),
        ("certifications".data, jsonStrArr x.resumeFacts.certifications)]),
     ("coverLetterFacts".data, jsonObj
       [("keyClaims".data, jsonStrArr x.coverLetterFacts.keyClaims),
        ("motivations".data, jsonStrArr x.coverLetterFacts.motivations)]),
     ("explicitUserAchievements".data, jsonStrArr x.explicitUserAchievements),
     ("missingData".data, jsonStrArr x.missingData)]

/-- JSON of a gap category. -/
def jsonCategory : GapCategory → List Char
  | .critical => jsonStr "critical".data
  | .optional => jsonStr "optional".data

/-- JSON of a `ScoreMatchResult`. -/
def jsonScoreMatch (s : ScoreMatchResult) : List Char :=
  jsonObj
    [("baselineScore".data, jsonOptNum s.baselineScore),
     ("enhancedScore".data, jsonOptNum s.enhancedScore),
     ("jobFitScore".data, jsonOptNum s.jobFitScore),
     ("explanation".data, jsonOptStr s.explanation),
     ("overallFeedback".data, jsonOptStr s.overallFeedback),
     ("gapAnalysis".data,
       '[' :: joinWith ','
         (s.gapAnalysis.map (fun gap => jsonObj
           [("point".data, jsonOptStr gap.point),
            ("category".data, jsonCategory gap.category),
            ("impact".data, jsonOptStr gap.impact),
            ("evidence".data, jsonObj
              [("resumeQuotes".data, jsonStrArr gap.evidence.resumeQuotes),
               ("jdQuotes".data, jsonStrArr gap.evidence.jdQuotes),
               ("missingKeywords".data, jsonStrArr gap.evidence.missingKeywords)])])) ++
       [']']),
     ("portfolioAdvice".data, jsonOptStr s.portfolioAdvice),
     ("recruiterNotes".data, jsonOptStr s.recruiterNotes),
     ("confidenceNotes".data, jsonStrArr s.confidenceNotes)]

/-- JSON of the metrics vault as it appears in `INPUT_JSON`
(`JSON.stringify` omits absent fields). -/
def jsonVault (v : Metrics.MetricsVault) : List Char :=
  jsonObj
    (([("projectImpact".data, v.projectImpact),
       ("latencyReduction".data, v.latencyReduction),
       ("costSavings".data, v.costSavings),
       ("usersServed".data, v.usersServed),
       ("uptime".data, v.uptime),
       ("otherMetrics".data, v.otherMetrics)].filterMap
      (fun f => f.2.map (fun s => (f.1, jsonStr s)))))

/-- `buildMetricsVaultSummary`: all six keys, absent values as
`null`. -/
def buildMetricsVaultSummary (metricsVault : Metrics.MetricsVault) : List Char :=
  jsonObj
    [("projectImpact".data, jsonOptStr metricsVault.projectImpact),
     ("latencyReduction".data, jsonOptStr metricsVault.latencyReduction),
     ("costSavings".data, jsonOptStr metricsVault.costSavings),
     ("usersServed".data, jsonOptStr metricsVault.usersServed),
     ("uptime".data, jsonOptStr metricsVault.uptime),
     ("otherMetrics".data, jsonOptStr metricsVault.otherMetrics)]

/-- `summarizePiiIssues`. -/
def summarizePiiIssues (unauthorizedPiiIssues : List Privacy.PiiValidationIssue)
    (unresolvedPlaceholders : List (List Char)) : List Char :=
  let parts : List (List Char) :=
    (if unauthorizedPiiIssues.isEmpty then [] else
      ["Unauthorized PII detected (".data ++
        joinWith2 ", ".data
          (unauthorizedPiiIssues.map
            (fun issue => Privacy.typeName issue.type ++ ':' :: natDecimal issue.count)) ++
        ").".data]) ++
    (if unresolvedPlaceholders.isEmpty then [] else
      ["Unknown PII placeholders detected (".data ++
        natDecimal unresolvedPlaceholders.length ++ ").".data])
  joinWith ' ' parts

/-- `applyPiiReinsertionToRewrite`. -/
def applyPiiReinsertionToRewrite (rewrite : RewriteDocsResult)
    (redactionEntries : List Privacy.PiiRedactionEntry) : RewriteDocsResult :=
  { rewrite with
    optimizedResume := Privacy.reinsertRedactedPii rewrite.optimizedResume redactionEntries,
    optimizedCoverLetter :=
      Privacy.reinsertRedactedPii rewrite.optimizedCoverLetter redactionEntries }

/-- Outcome of the `validateDraft` closure in `rewriteDocsWithClient`. -/
structure DraftValidation where
  correctedDraft : RewriteDocsResult
  isValid : Bool
  unauthorizedNumbers : List (List Char)
  unauthorizedPiiIssues : List Privacy.PiiValidationIssue
  unresolvedPlaceholders : List (List Char)

/-- The `validateDraft` closure: metrics-vault check on the raw draft,
PII checks on the draft with placeholders reinserted (privacy mode is
enabled exactly when redaction entries exist). -/
def validateDraft (draft : RewriteDocsResult) (metricsVault : Metrics.MetricsVault)
    (redactionEntries : List Privacy.PiiRedactionEntry) : DraftValidation :=
  let privacyModeEnabled := decide (0 < redactionEntries.length)
  let unauthorizedNumbers := Metrics.findUnauthorizedNumbersForRewrite draft metricsVault
  let withReinsertedPii :=
    if privacyModeEnabled then applyPiiReinsertionToRewrite draft redactionEntries
    else draft
  let combinedOutput :=
    (withReinsertedPii.optimizedResume.getD []) ++
      '\n' :: (withReinsertedPii.optimizedCoverLetter.getD [])
  let unauthorizedPiiIssues :=
    if privacyModeEnabled then Privacy.findUnauthorizedPii combinedOutput redactionEntries
    else []
  let unresolvedPlaceholders :=
    if privacyModeEnabled then
      Privacy.findUnresolvedPiiPlaceholders combinedOutput redactionEntries
    else []
  { correctedDraft := withReinsertedPii,
    isValid := unauthorizedNumbers.isEmpty && unauthorizedPiiIssues.isEmpty &&
      unresolvedPlaceholders.isEmpty,
    unauthorizedNumbers := unauthorizedNumbers,
    unauthorizedPiiIssues := unauthorizedPiiIssues,
    unresolvedPlaceholders := unresolvedPlaceholders }

/-- The `basePrompt` template of `rewriteDocsWithClient`. -/
def buildRewriteBasePrompt (extracted : ExtractFactsResult) (scoring : ScoreMatchResult)
    (explicitUserAchievements : List (List Char)) (metricsVault : Metrics.MetricsVault)
    (allowedMetricNumbers piiPlaceholders : List (List Char)) : List Char :=
  "\nINPUT_JSON:\n".data ++
  jsonObj
    [("extractedFacts".data, jsonExtractFacts extracted),
     ("scoreMatch".data, jsonScoreMatch scoring),
     ("explicitUserAchievements".data, jsonStrArr explicitUserAchievements),
     ("metricsVault".data, jsonVault metricsVault)] ++
  "\n\nMETRICS_VAULT_JSON:\n".data ++ buildMetricsVaultSummary metricsVault ++
  "\n\nALLOWED_NUMERIC_VALUES_FROM_VAULT_JSON:\n".data ++
  jsonStrArr allowedMetricNumbers ++
  "\n\nPII_PLACEHOLDERS_JSON:\n".data ++ jsonStrArr piiPlaceholders ++ "\n".data

/-- The `correctionPrompt` template of `rewriteDocsWithClient`. -/
def buildCorrectionPrompt (basePrompt : List Char) (firstValidation : DraftValidation)
    (allowedMetricNumbers piiPlaceholders : List (List Char)) : List Char :=
  '\n' :: basePrompt ++
  "\n\nCORRECTION_REQUIRED:\nThe previous rewrite violated output constraints.\nUnauthorized numeric values detected: ".data ++
  jsonStrArr firstValidation.unauthorizedNumbers ++ ".\n".data ++
  summarizePiiIssues firstValidation.unauthorizedPiiIssues
    firstValidation.unresolvedPlaceholders ++
  "\nRewrite both documents again and fix all violations.\nUse only allowed metrics vault numbers: ".data ++
  jsonStrArr allowedMetricNumbers ++
  ".\nUse only provided PII placeholders: ".data ++ jsonStrArr piiPlaceholders ++
  ".\nIf no allowed number applies, use \"improved X\" without numeric tokens.\n".data

/-- Observable outcome of the rewrite stage: the returned (or thrown)
result, the prompts sent to the generator in order, and the number of
correction cycles (the `onRetry` bump before the corrective call). -/
structure RewriteStageResult where
  result : Except (List Char) RewriteDocsResult
  prompts : List (List Char)
  corrections : Nat

/-- `rewriteDocsWithClient`, with the generator abstracted by the two
JSON drafts it would return on the first and the corrective call (the
constant system instruction and the transient-retry wrapper around each
call are not modelled; the drafts are the successfully parsed
responses).  The first draft is validated; when valid it is returned
with the PII placeholders reinserted.  Otherwise exactly one corrective
prompt is built and the second draft validated; a second failure throws
`rewriteDocs failed validation after correction prompt.`. -/
def rewriteDocsWithClient (draft1raw draft2raw : Json) (extracted : ExtractFactsResult)
    (scoring : ScoreMatchResult) (explicitUserAchievements : List (List Char))
    (metricsVault : Metrics.MetricsVault)
    (redactionEntries : List Privacy.PiiRedactionEntry) : RewriteStageResult :=
  let allowedMetricNumbers := Metrics.getAllowedMetricNumbers metricsVault
  let piiPlaceholders := redactionEntries.map (fun e => e.placeholder)
  let basePrompt := buildRewriteBasePrompt extracted scoring explicitUserAchievements
    metricsVault allowedMetricNumbers piiPlaceholders
  let firstDraft := normalizeRewriteDocs draft1raw
  let firstValidation := validateDraft firstDraft metricsVault redactionEntries
  if firstValidation.isValid then
    { result := .ok firstValidation.correctedDraft, prompts := [basePrompt],
      corrections := 0 }
  else
    let correctionPrompt := buildCorrectionPrompt basePrompt firstValidation
      allowedMetricNumbers piiPlaceholders
    let correctedDraft := normalizeRewriteDocs draft2raw
    let correctedValidation := validateDraft correctedDraft metricsVault redactionEntries
    if !correctedValidation.isValid then
      { result := .error "rewriteDocs failed validation after correction prompt.".data,
        prompts := [basePrompt, correctionPrompt], corrections := 1 }
    else
      { result := .ok correctedValidation.correctedDraft,
        prompts := [basePrompt, correctionPrompt], corrections := 1 }

end Gemini

/-! ## Final result contract and schema validation -/

/-- `AnalysisTrace` in `types.ts`. -/
structure AnalysisTrace where
  inputHash : List Char
  retrievalChunkIds : List (List Char)
  retrievalTrace : List Retrieval.RetrievalTraceEntry
  modelName : List Char
  tier : List Char
  timestamp : List Char
  retries : Nat
deriving DecidableEq, Repr

/-- `ScoreBreakdown` in `types.ts`. -/
structure ScoreBreakdown where
  baseline : Option ℚ
  enhanced : Option ℚ
  explanation : Option (List Char)
deriving DecidableEq, Repr

/-- `AnalysisResult` in `types.ts` (`Improvement` has the same shape as
a normalized gap item). -/
structure AnalysisResult where
  scoreBreakdown : ScoreBreakdown
  jobFitScore : Option ℚ
  overallFeedback : Option (List Char)
  improvements : List Gemini.GapItem
  optimizedResume : Option (List Char)
  optimizedCoverLetter : Option (List Char)
  languageDetected : Option Gemini.Language
  portfolioAdvice : Option (List Char)
  recruiterNotes : Option (List Char)
  evidenceSnippetWordLimit : Nat
  keywordCoverage : Ats.KeywordCoverage
  hardRequirementsMissing : List (List Char)
  analysisTrace : AnalysisTrace
deriving DecidableEq, Repr

/-- The JSON (runtime object) view of an `AnalysisResult`, as passed to
`validateAnalysisResultSchema` in the final assembly. -/
def encodeAnalysisResult (r : AnalysisResult) : Json :=
  let optS : Option (List Char) → Json := fun v =>
    match v with | none => .null | some s => .str s
  let optN : Option ℚ → Json := fun v =>
    match v with | none => .null | some q => .num q
  let strArr : List (List Char) → Json := fun xs => .arr (xs.map .str)
  .obj
    [("scoreBreakdown".data, .obj
        [("baseline".data, optN r.scoreBreakdown.baseline),
         ("enhanced".data, optN r.scoreBreakdown.enhanced),
         ("explanation".data, optS r.scoreBreakdown.explanation)]),
     ("jobFitScore".data, optN r.jobFitScore),
     ("overallFeedback".data, optS r.overallFeedback),
     ("improvements".data, .arr (r.improvements.map (fun gap =>
        .obj [("point".data, optS gap.point),
              ("category".data, .str (match gap.category with
                | .critical => "critical".data
                | .optional => "optional".data)),
              ("impact".data, optS gap.impact),
              ("evidence".data, .obj
                [("resumeQuotes".data, strArr gap.evidence.resumeQuotes),
                 ("jdQuotes".data, strArr gap.evidence.jdQuotes),
                 ("missingKeywords".data, strArr gap.evidence.missingKeywords)])]))),
     ("optimizedResume".data, optS r.optimizedResume),
     ("optimizedCoverLetter".data, optS r.optimizedCoverLetter),
     ("languageDetected".data, match r.languageDetected with
        | none => .null
        | some .English => .str "English".data
        | some .German => .str "German".data),
     ("portfolioAdvice".data, optS r.portfolioAdvice),
     ("recruiterNotes".data, optS r.recruiterNotes),
     ("evidenceSnippetWordLimit".data, .num (r.evidenceSnippetWordLimit : ℚ)),
     ("keywordCoverage".data, .obj
        [("matched".data, strArr r.keywordCoverage.matched),
         ("missing".data, strArr r.keywordCoverage.missing),
         ("partial".data, strArr r.keywordCoverage.partialKw)]),
     ("hardRequirementsMissing".data, strArr r.hardRequirementsMissing),
     ("analysisTrace".data, .obj
        [("inputHash".data, .str r.analysisTrace.inputHash),
         ("retrievalChunkIds".data, strArr r.analysisTrace.retrievalChunkIds),
         ("retrievalTrace".data, .arr (r.analysisTrace.retrievalTrace.map (fun e =>
            .obj [("chunkId".data, .str e.chunkId),
                  ("reason".data, .str e.reason)]))),
         ("modelName".data, .str r.analysisTrace.modelName),
         ("tier".data, .str r.analysisTrace.tier),
         ("timestamp".data, .str r.analysisTrace.timestamp),
         ("retries".data, .num (r.analysisTrace.retries : ℚ))])]

namespace Schema

/-- `ValidationResult` in `analysisSchemaService.ts`. -/
structure ValidationResult where
  valid : Bool
  errors : List (List Char)
deriving DecidableEq, Repr

/-- Undefined-aware field lookup (`none` models JS `undefined`). -/
def getO (fields : List (List Char × Json)) (name : String) : Option Json :=
  (fields.find? (fun f => f.1 = name.data)).map (fun f => f.2)

/-- `isObject` on a possibly absent value. -/
def isObjF : Option Json → Option (List (List Char × Json))
  | some (.obj fields) => some fields
  | _ => none

/-- `isNullableNumber`. -/
def isNullableNumberO : Option Json → Bool
  | some .null => true
  | some (.num _) => true
  | _ => false

/-- `isNullableString`. -/
def isNullableStringO : Option Json → Bool
  | some .null => true
  | some (.str _) => true
  | _ => false

/-- `typeof v === "string"`. -/
def isStringO : Option Json → Bool
  | some (.str _) => true
  | _ => false

/-- `typeof v === "number"`. -/
def isNumberO : Option Json → Bool
  | some (.num _) => true
  | _ => false

/-- `isStringArray`. -/
def isStringArrayO : Option Json → Bool
  | some (.arr items) =>
    items.all (fun item => match item with | .str _ => true | _ => false)
  | _ => false

/-- `isRetrievalTraceArray`. -/
def isRetrievalTraceArrayO : Option Json → Bool
  | some (.arr items) =>
    items.all (fun entry =>
      match entry with
      | .obj fields => isStringO (getO fields "chunkId") && isStringO (getO fields "reason")
      | _ => false)
  | _ => false

/-- Error list accumulated for one improvements entry. -/
def improvementErrors (index : Nat) (improvement : Json) : List (List Char) :=
  match improvement with
  | .obj imp =>
    (if isNullableStringO (getO imp "point") then [] else
      ["improvements[".data ++ natDecimal index ++ "].point must be string|null.".data]) ++
    (if (match getO imp "category" with
         | some (.str s) => s = "critical".data || s = "optional".data
         | _ => false) then [] else
      ["improvements[".data ++ natDecimal index ++
        ("].category must be ".data ++ '"' :: "critical".data ++ '"' :: '|' :: '"' :: "optional".data ++ '"' :: ".".data)]) ++
    (if isNullableStringO (getO imp "impact") then [] else
      ["improvements[".data ++ natDecimal index ++ "].impact must be string|null.".data]) ++
    (match isObjF (getO imp "evidence") with
     | none => ["improvements[".data ++ natDecimal index ++ "].evidence must be an object.".data]
     | some ev =>
       (if isStringArrayO (getO ev "resumeQuotes") then [] else
         ["improvements[".data ++ natDecimal index ++ "].evidence.resumeQuotes must be string[].".data]) ++
       (if isStringArrayO (getO ev "jdQuotes") then [] else
         ["improvements[".data ++ natDecimal index ++ "].evidence.jdQuotes must be string[].".data]) ++
       (if isStringArrayO (getO ev "missingKeywords") then [] else
         ["improvements[".data ++ natDecimal index ++ "].evidence.missingKeywords must be string[].".data]))
  | _ => ["improvements[".data ++ natDecimal index ++ "] must be an object.".data]

/-- `validateAnalysisResultSchema`: full structural validation
accumulating every error (never fail-fast past the top-level object
check). -/
def validateAnalysisResultSchema (value : Json) : ValidationResult :=
  match value with
  | .obj result =>
    let errors :=
      (match isObjF (getO result "scoreBreakdown") with
       | none => ["scoreBreakdown is required and must be an object.".data]
       | some sb =>
         (if isNullableNumberO (getO sb "baseline") then [] else
           ["scoreBreakdown.baseline must be number|null.".data]) ++
         (if isNullableNumberO (getO sb "enhanced") then [] else
           ["scoreBreakdown.enhanced must be number|null.".data]) ++
         (if isNullableStringO (getO sb "explanation") then [] else
           ["scoreBreakdown.explanation must be string|null.".data])) ++
      (if isNullableNumberO (getO result "jobFitScore") then [] else
        ["jobFitScore must be number|null.".data]) ++
      (if isNullableStringO (getO result "overallFeedback") then [] else
        ["overallFeedback must be string|null.".data]) ++
      (if isNullableStringO (getO result "optimizedResume") then [] else
        ["optimizedResume must be string|null.".data]) ++
      (if isNullableStringO (getO result "optimizedCoverLetter") then [] else
        ["optimizedCoverLetter must be string|null.".data]) ++
      (if isNullableStringO (getO result "portfolioAdvice") then [] else
        ["portfolioAdvice must be string|null.".data]) ++
      (if isNullableStringO (getO result "recruiterNotes") then [] else
        ["recruiterNotes must be string|null.".data]) ++
      (if isNumberO (getO result "evidenceSnippetWordLimit") then [] else
        ["evidenceSnippetWordLimit must be a number.".data]) ++
      (match isObjF (getO result "keywordCoverage") with
       | none => ["keywordCoverage is required and must be an object.".data]
       | some kc =>
         (if isStringArrayO (getO kc "matched") then [] else
           ["keywordCoverage.matched must be string[].".data]) ++
         (if isStringArrayO (getO kc "missing") then [] else
           ["keywordCoverage.missing must be string[].".data]) ++
         (if isStringArrayO (getO kc "partial") then [] else
           ["keywordCoverage.partial must be string[].".data])) ++
      (if isStringArrayO (getO result "hardRequirementsMissing") then [] else
        ["hardRequirementsMissing must be string[].".data]) ++
      (match getO result "improvements" with
       | some (.arr items) =>
         (items.enum.map (fun p => improvementErrors p.1 p.2)).flatten
       | _ => ["improvements must be an array.".data]) ++
      (match isObjF (getO result "analysisTrace") with
       | none => ["analysisTrace is required and must be an object.".data]
       | some tr =>
         (if isStringO (getO tr "inputHash") then [] else
           ["analysisTrace.inputHash must be string.".data]) ++
         (if isStringArrayO (getO tr "retrievalChunkIds") then [] else
           ["analysisTrace.retrievalChunkIds must be string[].".data]) ++
         (if isRetrievalTraceArrayO (getO tr "retrievalTrace") then [] else
           ["analysisTrace.retrievalTrace must be { chunkId: string; reason: string }[].".data]) ++
         (if isStringO (getO tr "modelName") then [] else
           ["analysisTrace.modelName must be string.".data]) ++
         (if isStringO (getO tr "tier") then [] else
           ["analysisTrace.tier must be string.".data]) ++
         (if isStringO (getO tr "timestamp") then [] else
           ["analysisTrace.timestamp must be string.".data]) ++
         (if isNumberO (getO tr "retries") then [] else
           ["analysisTrace.retries must be number.".data]))
    { valid := errors.isEmpty, errors := errors }
  | _ => { valid := false, errors := ["Result must be an object.".data] }

end Schema

namespace Gemini

/-- `parseExplicitUserAchievements`: split the additional context on
newlines and semicolons, trim, drop empties. -/
def parseExplicitUserAchievements (additionalContext : List Char) : List (List Char) :=
  ((reSplit [.alt (rcat [ropt (rchar '\r'), rchar '\n']) (rchar ';')]
      additionalContext).map trimL).filter
    (fun part => 0 < part.length)

/-- `analyzeApplication`, with the externals abstracted: the four
generator responses (extract stage, score stage, first and corrective
rewrite draft) are given as parsed JSON values, the SHA-256 input hash
and the ISO timestamp as opaque strings, and `transientRetries` counts
the `onRetry` bumps of the per-call transient-retry wrapper.  The
pipeline prepares the privacy-sanitized input, normalizes the stage
outputs, enforces the evidence post-filter, runs the rewrite guardrail
stage, recomputes the deterministic ATS coverage and retrieval trace,
assembles the final result and gates it through the schema
validator. -/
def analyzeApplication (input : ApplicationInput)
    (extractedRaw scoredRaw draft1raw draft2raw : Json)
    (inputHash timestamp : List Char) (transientRetries : Nat) :
    Except (List Char) AnalysisResult :=
  let prepared := Privacy.prepareApplicationForGemini input
  let sanitizedInput := prepared.sanitizedInput
  let redactionEntries := prepared.redactionEntries
  let tier := selectTier sanitizedInput
  let explicitUserAchievements :=
    parseExplicitUserAchievements sanitizedInput.additionalContext
  let extracted := normalizeExtractFacts extractedRaw
  let scored := enforceEvidenceFromSource (normalizeScoreMatch scoredRaw)
    { jobDescription := sanitizedInput.jobDescription,
      resumeContent := sanitizedInput.resumeContent,
      coverLetterContent := sanitizedInput.coverLetterContent }
  let rewriteStage := rewriteDocsWithClient draft1raw draft2raw extracted scored
    (if 0 < explicitUserAchievements.length then explicitUserAchievements
     else extracted.explicitUserAchievements)
    sanitizedInput.metricsVault redactionEntries
  match rewriteStage.result with
  | .error e => .error e
  | .ok rewritten =>
    let recruiterNotesParts := ([scored.recruiterNotes, rewritten.rewriteNotes].filterMap
      id).filter (fun value => 0 < (trimL value).length)
    let recruiterNotes := joinWith2 "\n\n".data recruiterNotesParts
    let deterministicCoverage := Ats.computeAtsCoverage sanitizedInput.jobDescription
      extracted.resumeFacts.toCoverage
    let retrievalTrace := Retrieval.selectRetrievalTrace
      { jobDescription := sanitizedInput.jobDescription,
        resumeContent := sanitizedInput.resumeContent,
        coverLetterContent := sanitizedInput.coverLetterContent,
        companyInfo := sanitizedInput.companyInfo,
        additionalContext := sanitizedInput.additionalContext }
    let retrievalChunkIds := retrievalTrace.map (fun entry => entry.chunkId)
    let finalResult : AnalysisResult :=
      { scoreBreakdown :=
          { baseline := scored.baselineScore, enhanced := scored.enhancedScore,
            explanation := scored.explanation },
        jobFitScore := scored.jobFitScore,
        overallFeedback := scored.overallFeedback,
        improvements := scored.gapAnalysis,
        optimizedResume := rewritten.optimizedResume,
        optimizedCoverLetter := rewritten.optimizedCoverLetter,
        languageDetected := extracted.languageDetected,
        portfolioAdvice := scored.portfolioAdvice,
        recruiterNotes := if recruiterNotes.isEmpty then none else some recruiterNotes,
        evidenceSnippetWordLimit := MAX_EVIDENCE_WORDS,
        keywordCoverage := deterministicCoverage.keywordCoverage,
        hardRequirementsMissing := deterministicCoverage.hardRequirementsMissing,
        analysisTrace :=
          { inputHash := inputHash,
            retrievalChunkIds := retrievalChunkIds,
            retrievalTrace := retrievalTrace,
            modelName := tierModel tier,
            tier := tierName tier,
            timestamp := timestamp,
            retries := transientRetries + rewriteStage.corrections } }
    let schemaValidation := Schema.validateAnalysisResultSchema
      (encodeAnalysisResult finalResult)
    if !schemaValidation.valid then
      .error ("AnalysisResult schema validation failed: ".data ++
        joinWith2 " | ".data schemaValidation.errors)
    else .ok finalResult

end Gemini

/-! ## Claims -/

/-- C1: for the vault `{projectImpact: "conversion +18%",
latencyReduction: "120 ms"}` and the text `Improved conversion by 18%
and retention by 42%. Reduced latency by 120 ms.`,
`findUnauthorizedNumbersInText` returns exactly `["42"]` (42 flagged,
18 and 120 not), and `extractNormalizedNumberTokens` normalizes
`2,300`, `2300` and `2300.0` to the same token. -/
theorem c1_metrics_vault_authorization :
    Metrics.findUnauthorizedNumbersInText
        "Improved conversion by 18% and retention by 42%. Reduced latency by 120 ms.".data
        { projectImpact := some "conversion +18%".data,
          latencyReduction := some "120 ms".data } = ["42".data] ∧
    Metrics.extractNormalizedNumberTokens "2,300".data = ["2300".data] ∧
    Metrics.extractNormalizedNumberTokens "2300".data = ["2300".data] ∧
    Metrics.extractNormalizedNumberTokens "2300.0".data = ["2300".data] := by
  decide

/-- C9 helper: the fully well-typed `AnalysisResult` of the schema
test. -/
def c9ValidResult : AnalysisResult :=
  { scoreBreakdown :=
      { baseline := some 62, enhanced := some 79,
        explanation := some "Keyword and requirement coverage improved.".data },
    jobFitScore := some 79,
    overallFeedback := some "Good alignment with role requirements.".data,
    improvements :=
      [{ point := some "Add production-grade ML deployment evidence.".data,
         category := .critical,
         impact := some "Stronger ATS relevance.".data,
         evidence :=
           { resumeQuotes := ["Built ML pipelines in Python and SQL".data],
             jdQuotes := ["Experience deploying ML models to production".data],
             missingKeywords := ["MLOps".data, "CI/CD".data] } }],
    optimizedResume := some "Optimized resume body".data,
    optimizedCoverLetter := some "Optimized cover letter body".data,
    languageDetected := some .English,
    portfolioAdvice := some "Highlight production repositories.".data,
    recruiterNotes := some "Use stronger impact framing.".data,
    evidenceSnippetWordLimit := 20,
    keywordCoverage :=
      { matched := ["python".data, "sql".data], missing := ["mlops".data],
        partialKw := [] },
    hardRequirementsMissing := ["3+ years MLOps".data],
    analysisTrace :=
      { inputHash := "abc123".data,
        retrievalChunkIds := ["resumeContent:0:0-120".data],
        retrievalTrace :=
          [{ chunkId := "resumeContent:0:0-120".data,
             reason := "Prioritized resume chunk for deterministic relevance.".data }],
        modelName := "gemini-2.5-pro".data,
        tier := "MEDIUM".data,
        timestamp := "2026-02-15T12:00:00.000Z".data,
        retries := 1 } }

/-- C9 helper: the same object with `analysisTrace.retries` replaced by
the string `"one"`. -/
def c9BrokenResult : Json :=
  match encodeAnalysisResult c9ValidResult with
  | .obj fields =>
    .obj (fields.map (fun f =>
      if f.1 = "analysisTrace".data then
        (f.1,
          match f.2 with
          | .obj tfields =>
            Json.obj (tfields.map (fun t =>
              if t.1 = "retries".data then (t.1, Json.str "one".data) else t))
          | v => v)
      else f))
  | v => v

/-- C9: the schema validator accepts the fully well-typed result with
`valid` and an empty error list, and rejects the result whose
`analysisTrace.retries` is a string with exactly the one error naming
the field path `analysisTrace.retries` (all other checks still ran and
produced no further error, exhibiting error accumulation rather than
fail-fast). -/
theorem c9_schema_validator_retries_path :
    (Schema.validateAnalysisResultSchema (encodeAnalysisResult c9ValidResult)).valid = true ∧
    (Schema.validateAnalysisResultSchema (encodeAnalysisResult c9ValidResult)).errors = [] ∧
    (Schema.validateAnalysisResultSchema c9BrokenResult).valid = false ∧
    (Schema.validateAnalysisResultSchema c9BrokenResult).errors =
      ["analysisTrace.retries must be number.".data] := by
  decide

/-- C10: whenever the deep-intent pattern (whose second alternative is
the bare word `deep` between word boundaries) matches the concatenated
additional context, company info and job description, `selectTier`
returns COMPLEX, regardless of the analysis mode and of every length
threshold. -/
theorem c10_deep_word_routes_complex (input : ApplicationInput)
    (h : reTest [DEEP_ANALYSIS_REGEX]
      (input.additionalContext ++ '\n' :: input.companyInfo ++ '\n' ::
        input.jobDescription) = true) :
    Gemini.selectTier input = .COMPLEX := by
  simp only [Gemini.selectTier]
  rw [h]
  simp

/-- C10 helper: a short job description mentioning `deep learning`,
requested in fast mode. -/
def c10Input : ApplicationInput :=
  { jobDescription := "ML role using deep learning models.".data,
    companyInfo := "Small team.".data,
    resumeContent := "Engineer with Python.".data,
    coverLetterContent := [],
    portfolioLinks := [],
    additionalContext := [],
    analysisMode := .fast,
    privacyMode := false,
    metricsVault := {} }

/-- C10 witness: the `deep learning` mention routes the fast-mode,
far-below-threshold input to COMPLEX. -/
theorem c10_deep_word_routes_complex_witness :
    Gemini.selectTier c10Input = .COMPLEX :=
  c10_deep_word_routes_complex c10Input (by decide)

/-- C5: `withRetry` (at its default of 3 attempts) makes between one
and three calls; the returned or rethrown outcome is exactly the
outcome of the final attempt (so a non-transient error is rethrown
immediately, with no further attempts); every non-final attempt failed
with a transient error (status in the transient set or a matching
message heuristic); and the backoff sleeps are 400ms before the second
attempt and 800ms before the third, doubling each attempt. -/
theorem c5_withRetry_policy {α : Type} (op : Nat → Except Gemini.JsError α) :
    1 ≤ (Gemini.withRetry op).calls ∧ (Gemini.withRetry op).calls ≤ 3 ∧
    (Gemini.withRetry op).result = op (Gemini.withRetry op).calls ∧
    (∀ k, 1 ≤ k → k < (Gemini.withRetry op).calls →
      ∃ e, op k = .error e ∧ Gemini.isTransientError e = true) ∧
    (Gemini.withRetry op).sleeps =
      [Gemini.BASE_BACKOFF_MS, 2 * Gemini.BASE_BACKOFF_MS].take
        ((Gemini.withRetry op).calls - 1) := by
  rcases h1 : op 1 with e1 | v1
  · cases ht1 : Gemini.isTransientError e1
    · have hrun : Gemini.withRetry op =
          { result := .error e1, calls := 1, sleeps := [] } := by
        simp [Gemini.withRetry, Gemini.withRetryAux, Gemini.MAX_RETRY_ATTEMPTS, h1, ht1]
      refine ⟨by simp [hrun], by simp [hrun], by simp [hrun, h1], ?_, by simp [hrun]⟩
      intro k hk1 hk2
      simp [hrun] at hk2
      omega
    · rcases h2 : op 2 with e2 | v2
      · cases ht2 : Gemini.isTransientError e2
        · have hrun : Gemini.withRetry op =
              { result := .error e2, calls := 2, sleeps := [400] } := by
            simp [Gemini.withRetry, Gemini.withRetryAux, Gemini.MAX_RETRY_ATTEMPTS, h1, ht1, h2, ht2,
              Gemini.BASE_BACKOFF_MS]
          refine ⟨by simp [hrun], by simp [hrun], by simp [hrun, h2], ?_,
            by simp [hrun, Gemini.BASE_BACKOFF_MS]⟩
          intro k hk1 hk2
          simp [hrun] at hk2
          have : k = 1 := by omega
          exact this ▸ ⟨e1, h1, ht1⟩
        · rcases h3 : op 3 with e3 | v3
          · have hrun : Gemini.withRetry op =
                { result := .error e3, calls := 3, sleeps := [400, 800] } := by
              simp [Gemini.withRetry, Gemini.withRetryAux, Gemini.MAX_RETRY_ATTEMPTS, h1, ht1, h2, ht2, h3,
                Gemini.BASE_BACKOFF_MS]
            refine ⟨by simp [hrun], by simp [hrun], by simp [hrun, h3], ?_,
              by simp [hrun, Gemini.BASE_BACKOFF_MS]⟩
            intro k hk1 hk2
            simp [hrun] at hk2
            rcases (by omega : k = 1 ∨ k = 2) with hk | hk
            · exact hk ▸ ⟨e1, h1, ht1⟩
            · exact hk ▸ ⟨e2, h2, ht2⟩
          · have hrun : Gemini.withRetry op =
                { result := .ok v3, calls := 3, sleeps := [400, 800] } := by
              simp [Gemini.withRetry, Gemini.withRetryAux, Gemini.MAX_RETRY_ATTEMPTS, h1, ht1, h2, ht2, h3,
                Gemini.BASE_BACKOFF_MS]
            refine ⟨by simp [hrun], by simp [hrun], by simp [hrun, h3], ?_,
              by simp [hrun, Gemini.BASE_BACKOFF_MS]⟩
            intro k hk1 hk2
            simp [hrun] at hk2
            rcases (by omega : k = 1 ∨ k = 2) with hk | hk
            · exact hk ▸ ⟨e1, h1, ht1⟩
            · exact hk ▸ ⟨e2, h2, ht2⟩
      · have hrun : Gemini.withRetry op =
            { result := .ok v2, calls := 2, sleeps := [400] } := by
          simp [Gemini.withRetry, Gemini.withRetryAux, Gemini.MAX_RETRY_ATTEMPTS, h1, ht1, h2,
            Gemini.BASE_BACKOFF_MS]
        refine ⟨by simp [hrun], by simp [hrun], by simp [hrun, h2], ?_,
          by simp [hrun, Gemini.BASE_BACKOFF_MS]⟩
        intro k hk1 hk2
        simp [hrun] at hk2
        have : k = 1 := by omega
        exact this ▸ ⟨e1, h1, ht1⟩
  · have hrun : Gemini.withRetry op =
        { result := .ok v1, calls := 1, sleeps := [] } := by
      simp [Gemini.withRetry, Gemini.withRetryAux, Gemini.MAX_RETRY_ATTEMPTS, h1]
    refine ⟨by simp [hrun], by simp [hrun], by simp [hrun, h1], ?_, by simp [hrun]⟩
    intro k hk1 hk2
    simp [hrun] at hk2
    omega

/-- C5 helper: an operation that fails once with HTTP 503 and then
succeeds. -/
def c5Op : Nat → Except Gemini.JsError Nat := fun k =>
  if k = 1 then .error { status := some 503 } else .ok 7

/-- C5 witness: on the 503-then-success operation the wrapper makes two
calls, sleeps once for 400ms, and returns the second outcome; the first
attempt is confirmed transient by the theorem. -/
theorem c5_withRetry_policy_witness :
    (∃ e, c5Op 1 = .error e ∧ Gemini.isTransientError e = true) ∧
      (Gemini.withRetry c5Op).result = c5Op (Gemini.withRetry c5Op).calls :=
  ⟨(c5_withRetry_policy c5Op).2.2.2.1 1 (by decide) (by decide),
   (c5_withRetry_policy c5Op).2.2.1⟩

/-- C3: in the rewrite stage, the generator is asked at most twice: a
single prompt when the first draft passes the combined
metrics/PII/unresolved-placeholder validation, and exactly one
corrective re-prompt otherwise; the result is returned iff one of the
two drafts validates, a second failure throwing the fatal error; and
the corrective prompt carries the specific unauthorized numbers, the
PII-issue summary, the allowed vault numbers and the known
placeholders. -/
theorem c3_rewrite_single_correction (draft1raw draft2raw : Json)
    (extracted : Gemini.ExtractFactsResult) (scoring : Gemini.ScoreMatchResult)
    (explicitUserAchievements : List (List Char))
    (metricsVault : Metrics.MetricsVault)
    (redactionEntries : List Privacy.PiiRedactionEntry) :
    (let r := Gemini.rewriteDocsWithClient draft1raw draft2raw extracted scoring
       explicitUserAchievements metricsVault redactionEntries
     let v1 := Gemini.validateDraft (Gemini.normalizeRewriteDocs draft1raw)
       metricsVault redactionEntries
     let v2 := Gemini.validateDraft (Gemini.normalizeRewriteDocs draft2raw)
       metricsVault redactionEntries
     r.prompts.length = (if v1.isValid then 1 else 2) ∧
     ((∃ doc, r.result = .ok doc) ↔ (v1.isValid = true ∨ v2.isValid = true)) ∧
     (v1.isValid = false → v2.isValid = false →
       r.result = .error "rewriteDocs failed validation after correction prompt.".data) ∧
     (v1.isValid = false →
       ∃ p a b c d e, r.prompts =
           [Gemini.buildRewriteBasePrompt extracted scoring explicitUserAchievements
             metricsVault (Metrics.getAllowedMetricNumbers metricsVault)
             (redactionEntries.map (fun en => en.placeholder)), p] ∧
         p = a ++ Gemini.jsonStrArr v1.unauthorizedNumbers ++ b ++
           Gemini.summarizePiiIssues v1.unauthorizedPiiIssues v1.unresolvedPlaceholders ++
           c ++ Gemini.jsonStrArr (Metrics.getAllowedMetricNumbers metricsVault) ++ d ++
           Gemini.jsonStrArr (redactionEntries.map (fun en => en.placeholder)) ++ e)) := by
  simp only [Gemini.rewriteDocsWithClient]
  cases hv1 : (Gemini.validateDraft (Gemini.normalizeRewriteDocs draft1raw)
      metricsVault redactionEntries).isValid
  · cases hv2 : (Gemini.validateDraft (Gemini.normalizeRewriteDocs draft2raw)
        metricsVault redactionEntries).isValid
    · refine ⟨by simp, by simp, fun _ _ => rfl, fun _ => ?_⟩
      refine ⟨_, '\n' :: Gemini.buildRewriteBasePrompt extracted scoring
          explicitUserAchievements metricsVault
          (Metrics.getAllowedMetricNumbers metricsVault)
          (redactionEntries.map (fun en => en.placeholder)) ++
          "\n\nCORRECTION_REQUIRED:\nThe previous rewrite violated output constraints.\nUnauthorized numeric values detected: ".data,
        ".\n".data,
        "\nRewrite both documents again and fix all violations.\nUse only allowed metrics vault numbers: ".data,
        ".\nUse only provided PII placeholders: ".data,
        ".\nIf no allowed number applies, use \"improved X\" without numeric tokens.\n".data,
        rfl, ?_⟩
      simp [Gemini.buildCorrectionPrompt]
    · refine ⟨by simp, by simp, fun _ h => by simp at h, fun _ => ?_⟩
      refine ⟨_, '\n' :: Gemini.buildRewriteBasePrompt extracted scoring
          explicitUserAchievements metricsVault
          (Metrics.getAllowedMetricNumbers metricsVault)
          (redactionEntries.map (fun en => en.placeholder)) ++
          "\n\nCORRECTION_REQUIRED:\nThe previous rewrite violated output constraints.\nUnauthorized numeric values detected: ".data,
        ".\n".data,
        "\nRewrite both documents again and fix all violations.\nUse only allowed metrics vault numbers: ".data,
        ".\nUse only provided PII placeholders: ".data,
        ".\nIf no allowed number applies, use \"improved X\" without numeric tokens.\n".data,
        rfl, ?_⟩
      simp [Gemini.buildCorrectionPrompt]
  · exact ⟨by simp, by simp, fun h _ => by simp at h, fun h => by simp at h⟩

/-- C3 helper: an empty extraction result. -/
def c3Extracted : Gemini.ExtractFactsResult :=
  { languageDetected := none,
    jdFacts :=
      { roleTitle := none, companyName := none, mustHaveSkills := [],
        niceToHaveSkills := [], responsibilities := [],
        requiredExperienceYears := none, keywords := [] },
    resumeFacts :=
      { candidateName := none, skills := [], experience := [], achievements := [],
        education := [], certifications := [] },
    coverLetterFacts := { keyClaims := [], motivations := [] },
    explicitUserAchievements := [], missingData := [] }

/-- C3 helper: an empty scoring result. -/
def c3Scoring : Gemini.ScoreMatchResult :=
  { baselineScore := none, enhancedScore := none, jobFitScore := none,
    explanation := none, overallFeedback := none, gapAnalysis := [],
    portfolioAdvice := none, recruiterNotes := none, confidenceNotes := [] }

/-- C3 helper: drafts that keep an unauthorized number against the
empty vault. -/
def c3Draft1 : Json :=
  .obj [("optimizedResume".data, .str "Improved conversion by 42%.".data)]

/-- C3 helper: the corrective draft, still carrying a number. -/
def c3Draft2 : Json :=
  .obj [("optimizedResume".data, .str "Improved conversion by 19%.".data)]

/-- C3 witness: with an empty vault both drafts fail validation, so the
stage issues two prompts and throws the fatal correction error. -/
theorem c3_rewrite_single_correction_witness :
    (Gemini.rewriteDocsWithClient c3Draft1 c3Draft2 c3Extracted c3Scoring [] {} []).result =
      .error "rewriteDocs failed validation after correction prompt.".data :=
  (c3_rewrite_single_correction c3Draft1 c3Draft2 c3Extracted c3Scoring [] {} []).2.2.1
    (by decide) (by decide)

/-- C4: whenever the assembled pipeline returns a result, its
`keywordCoverage` and `hardRequirementsMissing` are exactly the
deterministic `computeAtsCoverage` of the sanitized job description and
the stage-1 extracted resume facts — the score-stage model output never
reaches these fields. -/
theorem c4_coverage_recomputed_deterministically (input : ApplicationInput)
    (extractedRaw scoredRaw draft1raw draft2raw : Json)
    (inputHash timestamp : List Char) (transientRetries : Nat)
    (result : AnalysisResult)
    (h : Gemini.analyzeApplication input extractedRaw scoredRaw draft1raw draft2raw
        inputHash timestamp transientRetries = .ok result) :
    result.keywordCoverage =
      (Ats.computeAtsCoverage
        (Privacy.prepareApplicationForGemini input).sanitizedInput.jobDescription
        (Gemini.normalizeExtractFacts extractedRaw).resumeFacts.toCoverage).keywordCoverage ∧
    result.hardRequirementsMissing =
      (Ats.computeAtsCoverage
        (Privacy.prepareApplicationForGemini input).sanitizedInput.jobDescription
        (Gemini.normalizeExtractFacts extractedRaw).resumeFacts.toCoverage).hardRequirementsMissing := by
  simp only [Gemini.analyzeApplication] at h
  split at h
  · exact Except.noConfusion h
  · repeat' split at h
    all_goals first
      | (injection h with h; subst h; exact ⟨rfl, rfl⟩)
      | exact Except.noConfusion h

/-- Decidable equality of `Except` values (instantiated at the
pipeline result type for concrete witnesses). -/
instance {ε α : Type} [DecidableEq ε] [DecidableEq α] : DecidableEq (Except ε α) :=
  fun a b =>
    match a, b with
    | .ok x, .ok y =>
      if h : x = y then .isTrue (by rw [h]) else .isFalse (by intro hc; cases hc; exact h rfl)
    | .error x, .error y =>
      if h : x = y then .isTrue (by rw [h]) else .isFalse (by intro hc; cases hc; exact h rfl)
    | .ok _, .error _ => .isFalse (by intro hc; cases hc)
    | .error _, .ok _ => .isFalse (by intro hc; cases hc)

/-- C4 helper: an empty application input. -/
def c4Input : ApplicationInput :=
  { jobDescription := [], companyInfo := [], resumeContent := [],
    coverLetterContent := [], portfolioLinks := [], additionalContext := [],
    analysisMode := .balanced, privacyMode := false, metricsVault := {} }

/-- C4 helper: the successful run on the empty input with null stage
outputs. -/
def c4Result : AnalysisResult :=
  (Gemini.analyzeApplication c4Input .null .null .null .null
      "hash".data "2026-02-15T00:00:00.000Z".data 0).toOption.get (by decide)

/-- C4 witness: the theorem instantiated on the successful empty run. -/
theorem c4_coverage_recomputed_deterministically_witness :
    c4Result.keywordCoverage =
      (Ats.computeAtsCoverage
        (Privacy.prepareApplicationForGemini c4Input).sanitizedInput.jobDescription
        (Gemini.normalizeExtractFacts .null).resumeFacts.toCoverage).keywordCoverage :=
  (c4_coverage_recomputed_deterministically c4Input .null .null .null .null
    "hash".data "2026-02-15T00:00:00.000Z".data 0 c4Result (by decide)).1

/-! ### C7 infrastructure: the redactor assignment discipline -/

/-- The sequence of `register` calls of one redaction run: the returned
placeholders in order, plus the final state. -/
def registerRun : List (Privacy.PiiType × List Char) → Privacy.RedactorState →
    List (List Char) × Privacy.RedactorState
  | [], st => ([], st)
  | r :: rs, st =>
    let p := Privacy.register st r.2 r.1
    let rest := registerRun rs p.2
    (p.1 :: rest.1, rest.2)

/-- First-seen deduplication continuing from an accumulator. -/
def firstSeenFrom {α : Type} [DecidableEq α] (acc : List α) : List α → List α
  | [] => acc
  | k :: ks => firstSeenFrom (if k ∈ acc then acc else acc ++ [k]) ks

/-- Reading a decimal numeral back: appending one digit. -/
theorem parseIntDigits_append_digit (l : List Char) (c : Char) :
    parseIntDigits (l ++ [c]) = 10 * parseIntDigits l + (c.toNat - 48) := by
  simp [parseIntDigits, List.foldl_append]

/-- `parseIntDigits` inverts `natDecimalAux` (with sufficient fuel). -/
theorem parseIntDigits_natDecimalAux :
    ∀ fuel n, n < fuel → parseIntDigits (natDecimalAux fuel n) = n := by
  intro fuel
  induction fuel with
  | zero => intro n h; omega
  | succ fuel ih =>
    intro n h
    by_cases h10 : n < 10
    · simp only [natDecimalAux, if_pos h10]
      have : parseIntDigits [digitChar n] = (digitChar n).toNat - 48 := by
        simp [parseIntDigits]
      rw [this]
      interval_cases n <;> decide
    · have hpos : 0 < n := by omega
      have hdiv : n / 10 < n := Nat.div_lt_self hpos (by norm_num)
      have hfuel : n / 10 < fuel := by omega
      simp only [natDecimalAux, if_neg h10]
      rw [parseIntDigits_append_digit, ih _ hfuel]
      have hm : n % 10 < 10 := Nat.mod_lt _ (by norm_num)
      have hd : (digitChar (n % 10)).toNat - 48 = n % 10 := by
        generalize hg : n % 10 = m at hm
        interval_cases m <;> decide
      rw [hd]
      omega

/-- `natDecimal` is injective. -/
theorem natDecimal_injective : ∀ a b : Nat, natDecimal a = natDecimal b → a = b := by
  intro a b h
  have ha := parseIntDigits_natDecimalAux (a + 1) a (Nat.lt_succ_self a)
  have hb := parseIntDigits_natDecimalAux (b + 1) b (Nat.lt_succ_self b)
  rw [show natDecimalAux (a + 1) a = natDecimal a from rfl] at ha
  rw [show natDecimalAux (b + 1) b = natDecimal b from rfl] at hb
  rw [← ha, ← hb, h]

/-- Placeholders of the same type with different numbers differ. -/
theorem mkPlaceholder_num_injective (t : Privacy.PiiType) {a b : Nat}
    (h : Privacy.mkPlaceholder t a = Privacy.mkPlaceholder t b) : a = b := by
  apply natDecimal_injective
  unfold Privacy.mkPlaceholder at h
  simp only [List.append_assoc, List.cons_append, List.cons.injEq, true_and] at h
  have h2 := List.append_cancel_left (List.append_cancel_left h)
  have h3 : natDecimal a ++ [']'] = natDecimal b ++ [']'] := by injection h2
  exact List.append_cancel_right h3

/-- `find?` stays at a left-hand hit under appending. -/
theorem find?_append_left {α : Type} {p : α → Bool} {l₁ l₂ : List α} {x : α}
    (h : l₁.find? p = some x) : (l₁ ++ l₂).find? p = some x := by
  rw [List.find?_append, h]
  rfl

/-- `find?` skips a missing left part under appending. -/
theorem find?_append_right {α : Type} {p : α → Bool} {l₁ l₂ : List α}
    (h : l₁.find? p = none) : (l₁ ++ l₂).find? p = l₂.find? p := by
  rw [List.find?_append, h]
  rfl

/-- A key is absent from the placeholder map iff it is not among the
stored keys. -/
theorem lookupKey_eq_none_iff (m : List ((Privacy.PiiType × List Char) × List Char))
    (k : Privacy.PiiType × List Char) :
    Privacy.lookupKey m k = none ↔ k ∉ m.map Prod.fst := by
  unfold Privacy.lookupKey
  rw [Option.map_eq_none', List.find?_eq_none]
  constructor
  · intro h hk
    rcases List.mem_map.mp hk with ⟨e, he, hek⟩
    exact absurd (by simpa [hek]) (h e he)
  · intro h e he
    simp only [decide_eq_true_eq]
    intro hek
    exact h (List.mem_map.mpr ⟨e, he, hek⟩)

/-- Splitting a snoc list around a distinguished element. -/
theorem snoc_split_cases {α : Type} {l : List α} {e : α} {pre : List α} {kp : α}
    {post : List α} (h : l ++ [e] = pre ++ kp :: post) :
    (pre = l ∧ kp = e ∧ post = []) ∨
    ∃ post2, l = pre ++ kp :: post2 ∧ post = post2 ++ [e] := by
  cases post using List.reverseRecOn with
  | nil =>
    left
    have h2 := List.append_inj' h (by simp)
    refine ⟨h2.1.symm, ?_, rfl⟩
    have h3 := h2.2
    injection h3 with h4 _
    exact h4.symm
  | append_singleton post2 x =>
    right
    have h2 : l ++ [e] = (pre ++ kp :: post2) ++ [x] := by rw [h]; simp
    have h3 := List.append_inj' h2 (by simp)
    have hx : e = x := by
      have h5 := h3.2
      injection h5 with h4 _
    exact ⟨post2, h3.1, by rw [hx]⟩

/-- The structural invariant of the redactor state: counters equal the
per-type entry counts, every stored placeholder is
`[PII_<type>_<rank+1>]` where `rank` counts the earlier entries of the
same type, and stored keys are distinct. -/
structure RedactorInv (st : Privacy.RedactorState) : Prop where
  counters_eq : ∀ t, st.counters t =
    (st.keyToPlaceholder.filter (fun e => e.1.1 = t)).length
  numbering : ∀ pre kp post, st.keyToPlaceholder = pre ++ kp :: post →
    kp.2 = Privacy.mkPlaceholder kp.1.1
      ((pre.filter (fun e => e.1.1 = kp.1.1)).length + 1)
  nodupKeys : (st.keyToPlaceholder.map Prod.fst).Nodup

/-- The fresh redactor satisfies the invariant. -/
theorem redactorInv_empty : RedactorInv Privacy.emptyRedactor := by
  refine ⟨fun t => rfl, fun pre kp post h => ?_, by simp [Privacy.emptyRedactor]⟩
  simp [Privacy.emptyRedactor] at h

/-- One `register` call preserves the invariant; on a hit it returns
the stored placeholder and leaves the state unchanged, on a miss it
returns the freshly numbered placeholder and appends the entry. -/
theorem register_spec (st : Privacy.RedactorState) (value : List Char)
    (t : Privacy.PiiType) (hinv : RedactorInv st) :
    RedactorInv (Privacy.register st value t).2 ∧
    (∀ p, Privacy.lookupKey st.keyToPlaceholder (t, Privacy.normalizePiiKey t value) =
        some p → Privacy.register st value t = (p, st)) ∧
    (Privacy.lookupKey st.keyToPlaceholder (t, Privacy.normalizePiiKey t value) = none →
      (Privacy.register st value t).1 = Privacy.mkPlaceholder t (st.counters t + 1) ∧
      (Privacy.register st value t).2.keyToPlaceholder =
        st.keyToPlaceholder ++
          [((t, Privacy.normalizePiiKey t value),
            Privacy.mkPlaceholder t (st.counters t + 1))]) := by
  cases hlk : Privacy.lookupKey st.keyToPlaceholder (t, Privacy.normalizePiiKey t value) with
  | some p =>
    refine ⟨?_, fun q hq => ?_, fun hn => Option.noConfusion hn⟩
    · have hst : (Privacy.register st value t).2 = st := by
        simp [Privacy.register, hlk]
      rw [hst]; exact hinv
    · have hq2 : p = q := by injection hq
      subst hq2
      simp [Privacy.register, hlk]
  | none =>
    have hmap : (Privacy.register st value t).2.keyToPlaceholder =
        st.keyToPlaceholder ++
          [((t, Privacy.normalizePiiKey t value),
            Privacy.mkPlaceholder t (st.counters t + 1))] := by
      simp [Privacy.register, hlk]
    have hcnt : ∀ u, (Privacy.register st value t).2.counters u =
        if u = t then st.counters t + 1 else st.counters u := by
      intro u
      simp [Privacy.register, hlk]
    refine ⟨⟨?_, ?_, ?_⟩, fun q hq => Option.noConfusion hq, fun _ =>
      ⟨by simp [Privacy.register, hlk], hmap⟩⟩
    · intro u
      rw [hmap, hcnt u, List.filter_append]
      by_cases hu : u = t
      · subst hu
        simp [hinv.counters_eq u]
      · have hut : ¬ (t = u) := fun hc => hu hc.symm
        simp [hu, hut, hinv.counters_eq u]
    · intro pre kp post hsplit
      rw [hmap] at hsplit
      rcases snoc_split_cases hsplit with ⟨hpre, hkp, _⟩ | ⟨post2, hl, _⟩
      · subst hpre
        rw [hkp]
        simp [hinv.counters_eq t]
      · exact hinv.numbering pre kp post2 hl
    · rw [hmap]
      have hk := (lookupKey_eq_none_iff _ _).mp hlk
      simp only [List.map_append, List.map_cons, List.map_nil]
      rw [List.nodup_append]
      refine ⟨hinv.nodupKeys, List.nodup_singleton _, ?_⟩
      intro x hx hxk
      rw [List.mem_singleton] at hxk
      exact hk (hxk ▸ hx)

/-- Run-level specification: the invariant is maintained, stored keys
are the first-seen normalized keys, the map only grows, and every
request receives exactly its key's stored placeholder. -/
theorem registerRun_spec : ∀ (reqs : List (Privacy.PiiType × List Char))
    (st : Privacy.RedactorState), RedactorInv st →
    RedactorInv (registerRun reqs st).2 ∧
    (registerRun reqs st).2.keyToPlaceholder.map Prod.fst =
      firstSeenFrom (st.keyToPlaceholder.map Prod.fst)
        (reqs.map (fun r => (r.1, Privacy.normalizePiiKey r.1 r.2))) ∧
    (∃ ext, (registerRun reqs st).2.keyToPlaceholder = st.keyToPlaceholder ++ ext) ∧
    (registerRun reqs st).1 = reqs.map (fun r =>
      (Privacy.lookupKey (registerRun reqs st).2.keyToPlaceholder
        (r.1, Privacy.normalizePiiKey r.1 r.2)).getD []) := by
  intro reqs
  induction reqs with
  | nil =>
    intro st hinv
    exact ⟨hinv, rfl, ⟨[], by simp [registerRun]⟩, rfl⟩
  | cons r rs ih =>
    intro st hinv
    have hreg := register_spec st r.2 r.1 hinv
    cases hlk : Privacy.lookupKey st.keyToPlaceholder (r.1, Privacy.normalizePiiKey r.1 r.2) with
    | some p =>
      have hpr := hreg.2.1 p hlk
      have hrun : registerRun (r :: rs) st =
          (p :: (registerRun rs st).1, (registerRun rs st).2) := by
        simp only [registerRun, hpr]
      rcases ih st hinv with ⟨ihinv, ihkeys, ⟨ext, ihext⟩, ihouts⟩
      have hkey_mem : (r.1, Privacy.normalizePiiKey r.1 r.2) ∈
          st.keyToPlaceholder.map Prod.fst := by
        by_contra hc
        rw [← lookupKey_eq_none_iff] at hc
        rw [hc] at hlk
        cases hlk
      refine ⟨by rw [hrun]; exact ihinv, ?_, ?_, ?_⟩
      · rw [hrun]
        simp only [List.map_cons]
        rw [show firstSeenFrom (st.keyToPlaceholder.map Prod.fst)
            ((r.1, Privacy.normalizePiiKey r.1 r.2) ::
              rs.map (fun x => (x.1, Privacy.normalizePiiKey x.1 x.2))) =
            firstSeenFrom (st.keyToPlaceholder.map Prod.fst)
              (rs.map (fun x => (x.1, Privacy.normalizePiiKey x.1 x.2))) from by
          simp [firstSeenFrom, hkey_mem]]
        exact ihkeys
      · rw [hrun]; exact ⟨ext, ihext⟩
      · rw [hrun]
        simp only [List.map_cons]
        have hfind : Privacy.lookupKey (registerRun rs st).2.keyToPlaceholder
            (r.1, Privacy.normalizePiiKey r.1 r.2) = some p := by
          unfold Privacy.lookupKey at hlk ⊢
          rcases Option.map_eq_some'.mp hlk with ⟨e, he, hep⟩
          rw [ihext, find?_append_left he]
          simpa using hep
        rw [hfind]
        exact congrArg (fun l => p :: l) ihouts
    | none =>
      have hmiss := hreg.2.2 hlk
      have hrun : registerRun (r :: rs) st =
          ((Privacy.register st r.2 r.1).1 ::
             (registerRun rs (Privacy.register st r.2 r.1).2).1,
           (registerRun rs (Privacy.register st r.2 r.1).2).2) := by
        simp only [registerRun]
      rcases ih (Privacy.register st r.2 r.1).2 hreg.1 with
        ⟨ihinv, ihkeys, ⟨ext, ihext⟩, ihouts⟩
      have hkey_not : (r.1, Privacy.normalizePiiKey r.1 r.2) ∉
          st.keyToPlaceholder.map Prod.fst := (lookupKey_eq_none_iff _ _).mp hlk
      refine ⟨by rw [hrun]; exact ihinv, ?_, ?_, ?_⟩
      · rw [hrun]
        simp only [List.map_cons]
        rw [show firstSeenFrom (st.keyToPlaceholder.map Prod.fst)
            ((r.1, Privacy.normalizePiiKey r.1 r.2) ::
              rs.map (fun x => (x.1, Privacy.normalizePiiKey x.1 x.2))) =
            firstSeenFrom (st.keyToPlaceholder.map Prod.fst ++
                [(r.1, Privacy.normalizePiiKey r.1 r.2)])
              (rs.map (fun x => (x.1, Privacy.normalizePiiKey x.1 x.2))) from by
          simp [firstSeenFrom, hkey_not]]
        rw [ihkeys, hmiss.2]
        simp
      · rw [hrun]
        rw [ihext, hmiss.2]
        exact ⟨((r.1, Privacy.normalizePiiKey r.1 r.2),
          Privacy.mkPlaceholder r.1 (st.counters r.1 + 1)) :: ext,
          List.append_assoc _ _ _⟩
      · rw [hrun]
        simp only [List.map_cons]
        have hfindst : List.find? (fun e => e.1 =
            (r.1, Privacy.normalizePiiKey r.1 r.2)) st.keyToPlaceholder = none := by
          unfold Privacy.lookupKey at hlk
          exact Option.map_eq_none'.mp hlk
        have hfind : Privacy.lookupKey
            (registerRun rs (Privacy.register st r.2 r.1).2).2.keyToPlaceholder
            (r.1, Privacy.normalizePiiKey r.1 r.2) =
            some (Privacy.mkPlaceholder r.1 (st.counters r.1 + 1)) := by
          unfold Privacy.lookupKey
          rw [ihext, hmiss.2, List.append_assoc, find?_append_right hfindst]
          simp [List.find?]
        rw [hfind, hmiss.1]
        exact congrArg (fun l => Privacy.mkPlaceholder r.1 (st.counters r.1 + 1) :: l) ihouts

/-- Two splits of one list around distinct pivot entries that both
satisfy `p` have different `p`-filtered prefix lengths. -/
theorem filter_count_of_split {E : Type} (p : E → Bool)
    (pre1 post1 pre2 post2 : List E) (e1 e2 : E)
    (h : pre1 ++ e1 :: post1 = pre2 ++ e2 :: post2)
    (hne : e1 ≠ e2) (hp1 : p e1 = true) (hp2 : p e2 = true) :
    (pre1.filter p).length ≠ (pre2.filter p).length := by
  rcases List.append_eq_append_iff.mp h with ⟨a, ha1, ha2⟩ | ⟨c, hc1, hc2⟩
  · cases a with
    | nil =>
      rw [List.nil_append] at ha2
      injection ha2 with hx _
      exact absurd hx hne
    | cons x xs =>
      rw [List.cons_append] at ha2
      injection ha2 with hx _
      subst hx
      rw [ha1, List.filter_append, List.length_append]
      have hpos : 0 < ((e1 :: xs).filter p).length := by
        simp [List.filter_cons, hp1]
      omega
  · cases c with
    | nil =>
      rw [List.nil_append] at hc2
      injection hc2 with hx _
      exact absurd hx.symm hne
    | cons x xs =>
      rw [List.cons_append] at hc2
      injection hc2 with hx _
      subst hx
      rw [hc1, List.filter_append, List.length_append]
      have hpos : 0 < ((e2 :: xs).filter p).length := by
        simp [List.filter_cons, hp2]
      omega

/-- C7: one redaction run is modelled as the sequence of calls the
redaction callbacks make to the redactor (across all scanned fields),
starting from a fresh redactor.  The final key-to-placeholder map holds
exactly one entry per unique (type, normalized value) key — its stored
keys are the distinct normalized keys in first-detection order, without
duplicates; the entry whose prefix holds k earlier entries of its type
carries the placeholder of the shape open-bracket PII underscore TYPE
underscore (k+1) close-bracket, so numbering per type starts at 1 and
increments in first-detection order; every call, including any later
occurrence of an already seen key, returns exactly the placeholder the
final map stores for its normalized key; and distinct keys of the same
type receive distinct placeholders. -/
theorem c7_redactor_placeholder_discipline
    (reqs : List (Privacy.PiiType × List Char)) :
    ((registerRun reqs Privacy.emptyRedactor).2.keyToPlaceholder.map Prod.fst =
      firstSeenFrom []
        (reqs.map (fun r => (r.1, Privacy.normalizePiiKey r.1 r.2)))) ∧
    ((registerRun reqs Privacy.emptyRedactor).2.keyToPlaceholder.map Prod.fst).Nodup ∧
    (∀ pre kp post,
      (registerRun reqs Privacy.emptyRedactor).2.keyToPlaceholder =
        pre ++ kp :: post →
      kp.2 = Privacy.mkPlaceholder kp.1.1
        ((pre.filter (fun e => e.1.1 = kp.1.1)).length + 1)) ∧
    ((registerRun reqs Privacy.emptyRedactor).1 = reqs.map (fun r =>
      (Privacy.lookupKey (registerRun reqs Privacy.emptyRedactor).2.keyToPlaceholder
        (r.1, Privacy.normalizePiiKey r.1 r.2)).getD [])) ∧
    (∀ e1 e2,
      e1 ∈ (registerRun reqs Privacy.emptyRedactor).2.keyToPlaceholder →
      e2 ∈ (registerRun reqs Privacy.emptyRedactor).2.keyToPlaceholder →
      e1.1.1 = e2.1.1 → e1.1 ≠ e2.1 → e1.2 ≠ e2.2) := by
  obtain ⟨hinv, hkeys, _, houts⟩ :=
    registerRun_spec reqs Privacy.emptyRedactor redactorInv_empty
  refine ⟨by rw [hkeys]; rfl, hinv.nodupKeys, hinv.numbering, houts, ?_⟩
  intro e1 e2 h1 h2 htype hkne heq
  rcases List.append_of_mem h1 with ⟨pre1, post1, hd1⟩
  rcases List.append_of_mem h2 with ⟨pre2, post2, hd2⟩
  have hb1 := hinv.numbering pre1 e1 post1 hd1
  have hb2 := hinv.numbering pre2 e2 post2 hd2
  rw [htype] at hb1
  rw [hb1, hb2] at heq
  have hnum := mkPlaceholder_num_injective e2.1.1 heq
  have hne12 : e1 ≠ e2 := fun hc => hkne (by rw [hc])
  exact filter_count_of_split (fun e => e.1.1 = e2.1.1)
    pre1 post1 pre2 post2 e1 e2 (hd1.symm.trans hd2) hne12
    (decide_eq_true htype) (by simp) (by omega)

/-- A concrete run: an email, a phone number, the same email in a
different surface form, then a second distinct email. -/
def c7Reqs : List (Privacy.PiiType × List Char) :=
  [(.EMAIL, "Jane.Doe@example.com".data),
   (.PHONE, "+49 170 1234567".data),
   (.EMAIL, "JANE.DOE@EXAMPLE.COM".data),
   (.EMAIL, "other@example.org".data)]

/-- The first two stored entries of the concrete run. -/
def c7Pre : List ((Privacy.PiiType × List Char) × List Char) :=
  [((.EMAIL, "jane.doe@example.com".data), "[PII_EMAIL_1]".data),
   ((.PHONE, "491701234567".data), "[PII_PHONE_1]".data)]

/-- The third stored entry of the concrete run: the second distinct
email, numbered 2. -/
def c7Entry : (Privacy.PiiType × List Char) × List Char :=
  ((.EMAIL, "other@example.org".data), "[PII_EMAIL_2]".data)

/-- Witness for C7 at the concrete run: the final map splits as
`c7Pre ++ [c7Entry]`, and the numbering conjunct yields that the second
distinct email receives number 2 (one earlier email in the prefix). -/
theorem c7_redactor_placeholder_discipline_witness :
    ((registerRun c7Reqs Privacy.emptyRedactor).2.keyToPlaceholder =
        c7Pre ++ c7Entry :: []) ∧
    c7Entry.2 = Privacy.mkPlaceholder c7Entry.1.1
      ((c7Pre.filter (fun e => e.1.1 = c7Entry.1.1)).length + 1) :=
  ⟨by decide,
   (c7_redactor_placeholder_discipline c7Reqs).2.2.1 c7Pre c7Entry [] (by decide)⟩

/-! ### C6 infrastructure: whitespace canonicalization -/

/-- CRLF replacement preserves the word decomposition. -/
theorem wsWordsAux_replCRLF (s : List Char) :
    ∀ acc, wsWordsAux (replCRLF s) acc = wsWordsAux s acc := by
  induction s using replCRLF.induct with
  | case1 cs ih =>
    intro acc
    have hn : isJsWs (Char.ofNat 10) = true := rfl
    have hr : isJsWs (Char.ofNat 13) = true := rfl
    cases acc with
    | nil => simp [replCRLF, wsWordsAux, hn, hr, ih]
    | cons a as => simp [replCRLF, wsWordsAux, hn, hr, ih]
  | case2 c cs h ih =>
    intro acc
    by_cases hc : isJsWs c = true
    · cases acc with
      | nil => simp [replCRLF, h, wsWordsAux, hc, ih]
      | cons a as => simp [replCRLF, h, wsWordsAux, hc, ih]
    · simp [replCRLF, h, wsWordsAux, hc, ih]
  | case3 => intro acc; rfl

/-- The head surviving a `dropWhile` fails the predicate. -/
theorem dropWhile_head_false {α : Type} (p : α → Bool) :
    ∀ (l : List α) (c : α), (l.dropWhile p).head? = some c → p c = false := by
  intro l
  induction l with
  | nil => intro c h; simp at h
  | cons x xs ih =>
    intro c h
    rw [List.dropWhile_cons] at h
    by_cases hpx : p x = true
    · rw [if_pos hpx] at h
      exact ih c h
    · rw [if_neg hpx] at h
      simp at h
      subst h
      simpa using hpx

/-- `dropWhile` never lengthens a list. -/
theorem dropWhile_length_le {α : Type} (p : α → Bool) :
    ∀ l : List α, (l.dropWhile p).length ≤ l.length := by
  intro l
  induction l with
  | nil => simp
  | cons y ys ihy =>
    rw [List.dropWhile_cons]
    split
    · exact Nat.le_succ_of_le ihy
    · simp

/-- `dropWhile` over an all-failing list is the identity. -/
theorem dropWhile_all_false {α : Type} (p : α → Bool) :
    ∀ l : List α, (∀ c ∈ l, p c = false) → l.dropWhile p = l := by
  intro l
  induction l with
  | nil => intro _; rfl
  | cons x xs _ =>
    intro h
    have hx : p x = false := h x (List.mem_cons_self x xs)
    rw [List.dropWhile_cons, if_neg (by simp [hx])]

/-- Collapsing in run state equals collapsing after dropping the
leading whitespace run. -/
theorem collapseWsAux_true_eq : ∀ s : List Char,
    collapseWsAux true s = collapseWsAux false (s.dropWhile isJsWs) := by
  intro s
  induction s with
  | nil => rfl
  | cons c cs ih =>
    by_cases hc : isJsWs c = true
    · rw [List.dropWhile_cons, if_pos hc]
      simpa [collapseWsAux, hc] using ih
    · rw [List.dropWhile_cons, if_neg (by simp [hc])]
      simp [collapseWsAux, hc]

/-- Word scanning ignores a leading whitespace run. -/
theorem wsWordsAux_dropWhile : ∀ s : List Char,
    wsWordsAux s [] = wsWordsAux (s.dropWhile isJsWs) [] := by
  intro s
  induction s with
  | nil => rfl
  | cons c cs ih =>
    by_cases hc : isJsWs c = true
    · rw [List.dropWhile_cons, if_pos hc]
      simpa [wsWordsAux, hc] using ih
    · rw [List.dropWhile_cons, if_neg (by simp [hc])]

/-- Scanning a whitespace-free word pushes it (reversed) onto the
accumulator. -/
theorem wsWordsAux_word : ∀ (w r acc : List Char),
    (∀ c ∈ w, isJsWs c = false) →
    wsWordsAux (w ++ r) acc = wsWordsAux r (w.reverse ++ acc) := by
  intro w
  induction w with
  | nil => intro r acc _; simp
  | cons c cs ih =>
    intro r acc h
    have hc : isJsWs c = false := h c (List.mem_cons_self c cs)
    rw [List.cons_append]
    rw [show wsWordsAux (c :: (cs ++ r)) acc = wsWordsAux (cs ++ r) (c :: acc) from by
      simp [wsWordsAux, hc]]
    rw [ih r (c :: acc) (fun x hx => h x (List.mem_cons_of_mem c hx))]
    simp

/-- Collapsing passes a whitespace-free word through unchanged. -/
theorem collapseWsAux_word : ∀ (w r : List Char),
    (∀ c ∈ w, isJsWs c = false) →
    collapseWsAux false (w ++ r) = w ++ collapseWsAux false r := by
  intro w
  induction w with
  | nil => intro r _; rfl
  | cons c cs ih =>
    intro r h
    have hc : isJsWs c = false := h c (List.mem_cons_self c cs)
    simp only [List.cons_append]
    rw [show collapseWsAux false (c :: (cs ++ r)) = c :: collapseWsAux false (cs ++ r) from by
      simp [collapseWsAux, hc]]
    rw [ih r (fun x hx => h x (List.mem_cons_of_mem c hx))]

/-- Word scanning with a nonempty accumulator yields a nonempty list. -/
theorem wsWordsAux_ne_nil : ∀ (s acc : List Char), acc ≠ [] →
    wsWordsAux s acc ≠ [] := by
  intro s
  induction s with
  | nil =>
    intro acc h
    cases acc with
    | nil => exact absurd rfl h
    | cons a as => simp [wsWordsAux]
  | cons c cs ih =>
    intro acc h
    by_cases hc : isJsWs c = true
    · cases acc with
      | nil => exact absurd rfl h
      | cons a as => simp [wsWordsAux, hc]
    · have := ih (c :: acc) (List.cons_ne_nil c acc)
      simpa [wsWordsAux, hc] using this

/-- Joining onto a nonempty tail inserts a single space. -/
theorem joinSpace_cons (w : List Char) (rest : List (List Char)) (h : rest ≠ []) :
    joinSpace (w :: rest) = w ++ ' ' :: joinSpace rest := by
  cases rest with
  | nil => exact absurd rfl h
  | cons x t => simp [joinSpace, List.intersperse]

/-- For a text with no leading whitespace, trimming the collapsed text
yields exactly the single-space join of its words. -/
theorem trimCollapse_eq : ∀ (n : Nat) (s : List Char), s.length ≤ n →
    (∀ c, s.head? = some c → isJsWs c = false) →
    trimL (collapseWsAux false s) = joinSpace (wsWordsAux s []) := by
  intro n
  induction n with
  | zero =>
    intro s hlen _
    have hs : s = [] := List.length_eq_zero.mp (Nat.le_zero.mp hlen)
    subst hs
    rfl
  | succ n ih =>
    intro s hlen hhead
    cases s with
    | nil => rfl
    | cons c cs =>
      have hc : isJsWs c = false := hhead c rfl
      have hwr := List.takeWhile_append_dropWhile (fun x => !isJsWs x) (c :: cs)
      have hw_all : ∀ x ∈ (c :: cs).takeWhile (fun x => !isJsWs x), isJsWs x = false := by
        intro x hx
        have := List.mem_takeWhile_imp hx
        simpa using this
      have hw_head : (c :: cs).takeWhile (fun x => !isJsWs x) =
          c :: cs.takeWhile (fun x => !isJsWs x) := by
        rw [List.takeWhile_cons, if_pos (by simp [hc])]
      rw [← hwr, collapseWsAux_word _ _ hw_all, wsWordsAux_word _ _ [] hw_all,
        List.append_nil]
      cases hr : (c :: cs).dropWhile (fun x => !isJsWs x) with
      | nil =>
        rw [show collapseWsAux false [] = [] from rfl, List.append_nil]
        have htw : trimL ((c :: cs).takeWhile (fun x => !isJsWs x)) =
            (c :: cs).takeWhile (fun x => !isJsWs x) := by
          unfold trimL
          rw [dropWhile_all_false isJsWs _ hw_all,
            dropWhile_all_false isJsWs _
              (fun x hx => hw_all x (List.mem_reverse.mp hx)),
            List.reverse_reverse]
        rw [htw]
        rw [show wsWordsAux [] ((c :: cs).takeWhile (fun x => !isJsWs x)).reverse =
            [((c :: cs).takeWhile (fun x => !isJsWs x)).reverse.reverse] from by
          rw [hw_head]
          simp [wsWordsAux]]
        simp [joinSpace, List.intersperse]
      | cons c1 r1 =>
        have hc1 : isJsWs c1 = true := by
          have := dropWhile_head_false (fun x => !isJsWs x) (c :: cs) c1
            (by rw [hr]; rfl)
          simpa using this
        have hd2head : ∀ x, (r1.dropWhile isJsWs).head? = some x → isJsWs x = false :=
          fun x hx => dropWhile_head_false isJsWs r1 x hx
        have hlen2 : (r1.dropWhile isJsWs).length ≤ n := by
          have h1 : (r1.dropWhile isJsWs).length ≤ r1.length :=
            dropWhile_length_le isJsWs r1
          have h2 : ((c :: cs).takeWhile (fun x => !isJsWs x)).length +
              (c1 :: r1).length = (c :: cs).length := by
            rw [← hr, ← List.length_append, hwr]
          have h3 : 1 ≤ ((c :: cs).takeWhile (fun x => !isJsWs x)).length := by
            rw [hw_head]; simp
          simp only [List.length_cons] at h2 hlen
          omega
        have hIH := ih (r1.dropWhile isJsWs) hlen2 hd2head
        rw [show collapseWsAux false (c1 :: r1) = ' ' :: collapseWsAux true r1 from by
          simp [collapseWsAux, hc1]]
        rw [collapseWsAux_true_eq r1]
        rw [show wsWordsAux (c1 :: r1) ((c :: cs).takeWhile (fun x => !isJsWs x)).reverse =
            ((c :: cs).takeWhile (fun x => !isJsWs x)).reverse.reverse ::
              wsWordsAux r1 [] from by
          rw [hw_head]
          simp [wsWordsAux, hc1]]
        rw [List.reverse_reverse, wsWordsAux_dropWhile r1]
        cases hd2 : r1.dropWhile isJsWs with
        | nil =>
          rw [show collapseWsAux false [] = [] from rfl]
          rw [show wsWordsAux ([] : List Char) [] = [] from rfl]
          have hrev : ((c :: cs).takeWhile (fun x => !isJsWs x) ++ [' ']).reverse =
              ' ' :: ((c :: cs).takeWhile (fun x => !isJsWs x)).reverse := by
            simp
          unfold trimL
          rw [show ((c :: cs).takeWhile (fun x => !isJsWs x) ++
              [' ']).dropWhile isJsWs =
              (c :: cs).takeWhile (fun x => !isJsWs x) ++ [' '] from by
            rw [hw_head, List.cons_append, List.dropWhile_cons, if_neg (by simp [hc])]]
          rw [hrev]
          rw [show (' ' :: ((c :: cs).takeWhile (fun x => !isJsWs x)).reverse).dropWhile
              isJsWs = ((c :: cs).takeWhile (fun x => !isJsWs x)).reverse from by
            rw [List.dropWhile_cons, if_pos (by rfl)]
            exact dropWhile_all_false isJsWs _
              (fun x hx => hw_all x (List.mem_reverse.mp hx))]
          simp [joinSpace, List.intersperse]
        | cons c2 r2 =>
          rw [← hd2]
          have hc2 : isJsWs c2 = false := hd2head c2 (by rw [hd2]; rfl)
          have hXhead : ∀ x, (collapseWsAux false (r1.dropWhile isJsWs)).head? = some x →
              isJsWs x = false := by
            intro x hx
            rw [hd2] at hx
            rw [show collapseWsAux false (c2 :: r2) =
                c2 :: collapseWsAux false r2 from by simp [collapseWsAux, hc2]] at hx
            simp at hx
            rw [← hx]
            exact hc2
          have hXdrop : (collapseWsAux false (r1.dropWhile isJsWs)).reverse.dropWhile
              isJsWs ≠ [] := by
            intro hcon
            have hall := List.dropWhile_eq_nil_iff.mp hcon
            have hmem : c2 ∈ (collapseWsAux false (r1.dropWhile isJsWs)).reverse := by
              rw [hd2]
              rw [show collapseWsAux false (c2 :: r2) =
                  c2 :: collapseWsAux false r2 from by simp [collapseWsAux, hc2]]
              simp
            have := hall c2 hmem
            rw [hc2] at this
            cases this
          -- left-hand side: trim the word, the space and the collapsed rest
          unfold trimL
          rw [show ((c :: cs).takeWhile (fun x => !isJsWs x) ++
              ' ' :: collapseWsAux false (r1.dropWhile isJsWs)).dropWhile isJsWs =
              (c :: cs).takeWhile (fun x => !isJsWs x) ++
                ' ' :: collapseWsAux false (r1.dropWhile isJsWs) from by
            rw [hw_head, List.cons_append, List.dropWhile_cons, if_neg (by simp [hc])]]
          rw [show ((c :: cs).takeWhile (fun x => !isJsWs x) ++
              ' ' :: collapseWsAux false (r1.dropWhile isJsWs)).reverse =
              (collapseWsAux false (r1.dropWhile isJsWs)).reverse ++
                ' ' :: ((c :: cs).takeWhile (fun x => !isJsWs x)).reverse from by
            simp]
          rw [List.dropWhile_append]
          rw [if_neg (by simpa using hXdrop)]
          rw [List.reverse_append]
          have hXtrim : ((collapseWsAux false (r1.dropWhile isJsWs)).reverse.dropWhile
              isJsWs).reverse = joinSpace (wsWordsAux (r1.dropWhile isJsWs) []) := by
            rw [← hIH]
            unfold trimL
            congr 2
            cases hX : collapseWsAux false (r1.dropWhile isJsWs) with
            | nil => rfl
            | cons x xs =>
              rw [List.dropWhile_cons,
                if_neg (by simp [hXhead x (by rw [hX]; rfl)])]
          rw [hXtrim]
          have hwne : wsWordsAux (r1.dropWhile isJsWs) [] ≠ [] := by
            rw [hd2]
            rw [show wsWordsAux (c2 :: r2) [] = wsWordsAux r2 [c2] from by
              simp [wsWordsAux, hc2]]
            exact wsWordsAux_ne_nil r2 [c2] (List.cons_ne_nil c2 [])
          rw [joinSpace_cons _ _ hwne]
          simp

/-- Trimming the collapsed text ignores a leading whitespace run. -/
theorem trimL_collapse_dropWhile : ∀ u : List Char,
    trimL (collapseWsAux false u) = trimL (collapseWsAux false (u.dropWhile isJsWs)) := by
  intro u
  induction u with
  | nil => rfl
  | cons c cs _ =>
    by_cases hc : isJsWs c = true
    · rw [List.dropWhile_cons, if_pos hc]
      rw [show collapseWsAux false (c :: cs) = ' ' :: collapseWsAux true cs from by
        simp [collapseWsAux, hc]]
      rw [collapseWsAux_true_eq]
      unfold trimL
      rw [show (' ' :: collapseWsAux false (cs.dropWhile isJsWs)).dropWhile isJsWs =
          (collapseWsAux false (cs.dropWhile isJsWs)).dropWhile isJsWs from by
        rw [List.dropWhile_cons, if_pos (by rfl)]]
    · rw [List.dropWhile_cons, if_neg (by simp [hc])]

/-- `normalizeText` equals the single-space join of the whitespace
words of its input: the normalized text depends on a field only
through its word list. -/
theorem normalizeText_eq_joinSpace (v : List Char) :
    Retrieval.normalizeText v = joinSpace (wsWords v) := by
  unfold Retrieval.normalizeText collapseWs
  rw [trimL_collapse_dropWhile]
  rw [trimCollapse_eq ((replCRLF v).dropWhile isJsWs).length _ le_rfl
    (fun c h => dropWhile_head_false isJsWs (replCRLF v) c h)]
  rw [← wsWordsAux_dropWhile, wsWordsAux_replCRLF]
  rfl

/-- C6: `selectRetrievalChunkIds` is deterministic — the embedding is a
pure function, so repeated calls on one fixed input are literally the
same value — and whitespace-invariant: for two inputs whose five text
fields have the same whitespace-word decomposition field by field
(i.e. they differ only in leading, trailing or internal whitespace
runs, including CRLF versus LF), the returned ordered id lists are
identical. -/
theorem c6_retrieval_ids_deterministic_ws_invariant
    (a b : Retrieval.RetrievalInput) (limit : Nat)
    (h : ∀ s : Retrieval.RetrievalSource,
      wsWords (Retrieval.fieldOf a s) = wsWords (Retrieval.fieldOf b s)) :
    Retrieval.selectRetrievalChunkIds a limit =
      Retrieval.selectRetrievalChunkIds a limit ∧
    Retrieval.selectRetrievalChunkIds a limit =
      Retrieval.selectRetrievalChunkIds b limit := by
  refine ⟨rfl, ?_⟩
  have hchunk : ∀ s : Retrieval.RetrievalSource,
      Retrieval.chunkTextForRetrieval s (Retrieval.fieldOf a s) =
        Retrieval.chunkTextForRetrieval s (Retrieval.fieldOf b s) := by
    intro s
    unfold Retrieval.chunkTextForRetrieval
    rw [show Retrieval.normalizeText (Retrieval.fieldOf a s) =
        Retrieval.normalizeText (Retrieval.fieldOf b s) from by
      rw [normalizeText_eq_joinSpace, normalizeText_eq_joinSpace, h s]]
  unfold Retrieval.selectRetrievalChunkIds Retrieval.selectRetrievalChunks
    Retrieval.buildRetrievalChunks
  simp only [List.flatMap_cons, List.flatMap_nil]
  rw [hchunk .jobDescription, hchunk .resumeContent, hchunk .coverLetterContent,
    hchunk .companyInfo, hchunk .additionalContext]

/-- A concrete input for the C6 witness. -/
def c6A : Retrieval.RetrievalInput :=
  { jobDescription := "Senior data engineer\r\nrole in Berlin".data
  , resumeContent := "Python developer with Spark".data
  , coverLetterContent := "".data
  , companyInfo := "Acme GmbH".data
  , additionalContext := "".data }

/-- The same input with different whitespace runs in every field. -/
def c6B : Retrieval.RetrievalInput :=
  { jobDescription := "  Senior   data engineer role in Berlin ".data
  , resumeContent := "Python\tdeveloper  with Spark".data
  , coverLetterContent := " ".data
  , companyInfo := "Acme\nGmbH".data
  , additionalContext := "".data }

/-- Witness for C6: the two concrete inputs are field-wise word-equal,
and their selected chunk id lists coincide. -/
theorem c6_retrieval_ids_deterministic_ws_invariant_witness :
    (∀ s : Retrieval.RetrievalSource,
      wsWords (Retrieval.fieldOf c6A s) = wsWords (Retrieval.fieldOf c6B s)) ∧
    Retrieval.selectRetrievalChunkIds c6A 8 =
      Retrieval.selectRetrievalChunkIds c6B 8 :=
  ⟨fun s => by cases s <;> decide,
   (c6_retrieval_ids_deterministic_ws_invariant c6A c6B 8
     (fun s => by cases s <;> decide)).2⟩

/-! ### C8 infrastructure: snippet clamping and source checking -/

/-- Scanning the empty text with a nonempty accumulator yields the
accumulated word. -/
theorem wsWordsAux_nil_ne (acc : List Char) (h : acc ≠ []) :
    wsWordsAux [] acc = [acc.reverse] := by
  cases acc with
  | nil => exact absurd rfl h
  | cons a as => simp [wsWordsAux]

/-- A whitespace head with a nonempty accumulator closes the word. -/
theorem wsWordsAux_ws_cons (c : Char) (s acc : List Char) (hc : isJsWs c = true)
    (h : acc ≠ []) : wsWordsAux (c :: s) acc = acc.reverse :: wsWordsAux s [] := by
  cases acc with
  | nil => exact absurd rfl h
  | cons a as => simp [wsWordsAux, hc]

/-- Every word produced by the scanner is nonempty and whitespace
free, provided the accumulator is. -/
theorem wsWordsAux_words_wf : ∀ (s acc : List Char),
    (∀ c ∈ acc, isJsWs c = false) →
    ∀ w ∈ wsWordsAux s acc, w ≠ [] ∧ ∀ c ∈ w, isJsWs c = false := by
  intro s
  induction s with
  | nil =>
    intro acc hacc w hw
    cases acc with
    | nil => simp [wsWordsAux] at hw
    | cons a as =>
      simp [wsWordsAux] at hw
      subst hw
      refine ⟨by simp, ?_⟩
      intro c hc
      rcases List.mem_append.mp hc with h2 | h2
      · exact hacc c (List.mem_cons_of_mem a (List.mem_reverse.mp h2))
      · have hca : c = a := by simpa using h2
        exact hacc c (by rw [hca]; exact List.mem_cons_self a as)
  | cons c cs ih =>
    intro acc hacc w hw
    by_cases hc : isJsWs c = true
    · cases acc with
      | nil =>
        rw [show wsWordsAux (c :: cs) [] = wsWordsAux cs [] from by
          simp [wsWordsAux, hc]] at hw
        exact ih [] (by simp) w hw
      | cons a as =>
        rw [wsWordsAux_ws_cons c cs (a :: as) hc (List.cons_ne_nil a as)] at hw
        cases hw with
        | head =>
          refine ⟨by simp, ?_⟩
          intro x hx
          exact hacc x (List.mem_reverse.mp hx)
        | tail _ hw2 => exact ih [] (by simp) w hw2
    · rw [show wsWordsAux (c :: cs) acc = wsWordsAux cs (c :: acc) from by
        simp [wsWordsAux, hc]] at hw
      refine ih (c :: acc) ?_ w hw
      intro x hx
      cases hx with
      | head => simpa using hc
      | tail _ hx2 => exact hacc x hx2

/-- Scanning the single-space join of nonempty whitespace-free words
returns exactly those words. -/
theorem wsWords_joinSpace : ∀ ws : List (List Char),
    (∀ w ∈ ws, w ≠ [] ∧ ∀ c ∈ w, isJsWs c = false) →
    wsWords (joinSpace ws) = ws := by
  intro ws
  induction ws with
  | nil => intro _; rfl
  | cons w rest ih =>
    intro h
    have hw := h w (List.mem_cons_self w rest)
    cases rest with
    | nil =>
      rw [show joinSpace [w] = w from by simp [joinSpace, List.intersperse]]
      unfold wsWords
      have h1 := wsWordsAux_word w [] [] hw.2
      rw [List.append_nil, List.append_nil] at h1
      rw [h1, wsWordsAux_nil_ne _ (by simpa using hw.1), List.reverse_reverse]
    | cons x t =>
      rw [joinSpace_cons w (x :: t) (List.cons_ne_nil x t)]
      unfold wsWords
      rw [show w ++ ' ' :: joinSpace (x :: t) = w ++ (' ' :: joinSpace (x :: t)) from rfl]
      rw [wsWordsAux_word w (' ' :: joinSpace (x :: t)) [] hw.2, List.append_nil]
      rw [wsWordsAux_ws_cons ' ' _ _ rfl (by simpa using hw.1), List.reverse_reverse]
      have ihr := ih (fun w2 hw2 => h w2 (List.mem_cons_of_mem w hw2))
      unfold wsWords at ihr
      rw [ihr]

/-- A clamped snippet has at most `MAX_EVIDENCE_WORDS` words. -/
theorem clampSnippetWords_words_le (v : List Char) :
    (wsWords (Gemini.clampSnippetWords v)).length ≤ Gemini.MAX_EVIDENCE_WORDS := by
  unfold Gemini.clampSnippetWords
  rw [wsWords_joinSpace ((wsWords v).take Gemini.MAX_EVIDENCE_WORDS) (fun w hw =>
    wsWordsAux_words_wf v [] (by simp) w (List.mem_of_mem_take hw))]
  rw [List.length_take]
  exact Nat.min_le_left _ _

/-- Every snippet from `asSnippetArray` obeys the word bound. -/
theorem asSnippetArray_words_le (j : Json) (q : List Char)
    (h : q ∈ Gemini.asSnippetArray j) :
    (wsWords q).length ≤ Gemini.MAX_EVIDENCE_WORDS := by
  unfold Gemini.asSnippetArray at h
  rcases List.mem_map.mp h with ⟨x, _, hx⟩
  rw [← hx]
  exact clampSnippetWords_words_le x

/-- Every evidence snippet of a normalized score result obeys the
word bound. -/
theorem normalizeScoreMatch_words_le (raw : Json) (gap : Gemini.GapItem)
    (h : gap ∈ (Gemini.normalizeScoreMatch raw).gapAnalysis) (q : List Char)
    (hq : q ∈ gap.evidence.resumeQuotes ∨ q ∈ gap.evidence.jdQuotes ∨
      q ∈ gap.evidence.missingKeywords) :
    (wsWords q).length ≤ Gemini.MAX_EVIDENCE_WORDS := by
  simp only [Gemini.normalizeScoreMatch] at h
  rcases List.mem_map.mp h with ⟨item, _, hitem⟩
  rcases hq with hq | hq | hq <;>
  · rw [← hitem] at hq
    exact asSnippetArray_words_le _ q hq

/-- A positive `existsInSource` check exhibits the normalized snippet
as a contiguous slice of the normalized source. -/
theorem existsInSource_substring (q src : List Char)
    (h : Gemini.existsInSource q src = true) :
    ∃ k, ((Gemini.normalizeForMatch src).drop k).take
        (Gemini.normalizeForMatch q).length = Gemini.normalizeForMatch q := by
  unfold Gemini.existsInSource at h
  split at h
  · cases h
  · unfold includesL at h
    rcases List.any_eq_true.mp h with ⟨i, _, hp⟩
    exact ⟨i, by simpa using hp⟩

/-- C8: after score-stage normalization (`normalizeScoreMatch`, which
clamps each snippet to its first 20 whitespace words) and source
post-filtering (`enforceEvidenceFromSource`), every surviving evidence
snippet in every gap-analysis item is at most 20 words; every
surviving resumeQuote passes the case- and whitespace-insensitive
substring check against the resume-plus-cover-letter corpus, and every
surviving jdQuote and missingKeyword passes it against the job
description — each positive check exhibiting the normalized snippet as
a contiguous slice of the normalized source; and a snippet appears in
a filtered gap item exactly when the normalized model output held it
in the same position and the check succeeds, so snippets not found in
the corresponding source are dropped. -/
theorem c8_evidence_clamped_and_source_bound (raw : Json)
    (sourceText : Gemini.SourceText) :
    (∀ gap ∈ (Gemini.enforceEvidenceFromSource (Gemini.normalizeScoreMatch raw)
        sourceText).gapAnalysis,
      (∀ q ∈ gap.evidence.resumeQuotes,
        (wsWords q).length ≤ Gemini.MAX_EVIDENCE_WORDS ∧
        Gemini.existsInSource q (sourceText.resumeContent ++
          '\n' :: sourceText.coverLetterContent) = true ∧
        ∃ k, ((Gemini.normalizeForMatch (sourceText.resumeContent ++
            '\n' :: sourceText.coverLetterContent)).drop k).take
          (Gemini.normalizeForMatch q).length = Gemini.normalizeForMatch q) ∧
      (∀ q ∈ gap.evidence.jdQuotes,
        (wsWords q).length ≤ Gemini.MAX_EVIDENCE_WORDS ∧
        Gemini.existsInSource q sourceText.jobDescription = true ∧
        ∃ k, ((Gemini.normalizeForMatch sourceText.jobDescription).drop k).take
          (Gemini.normalizeForMatch q).length = Gemini.normalizeForMatch q) ∧
      (∀ q ∈ gap.evidence.missingKeywords,
        (wsWords q).length ≤ Gemini.MAX_EVIDENCE_WORDS ∧
        Gemini.existsInSource q sourceText.jobDescription = true ∧
        ∃ k, ((Gemini.normalizeForMatch sourceText.jobDescription).drop k).take
          (Gemini.normalizeForMatch q).length = Gemini.normalizeForMatch q)) ∧
    ((Gemini.enforceEvidenceFromSource (Gemini.normalizeScoreMatch raw)
        sourceText).gapAnalysis.length =
      (Gemini.normalizeScoreMatch raw).gapAnalysis.length) ∧
    (∀ i (hi : i < (Gemini.enforceEvidenceFromSource (Gemini.normalizeScoreMatch raw)
          sourceText).gapAnalysis.length)
        (hj : i < (Gemini.normalizeScoreMatch raw).gapAnalysis.length), ∀ q,
      (q ∈ (((Gemini.enforceEvidenceFromSource (Gemini.normalizeScoreMatch raw)
            sourceText).gapAnalysis.get ⟨i, hi⟩).evidence.resumeQuotes) ↔
        q ∈ (((Gemini.normalizeScoreMatch raw).gapAnalysis.get
            ⟨i, hj⟩).evidence.resumeQuotes) ∧
          Gemini.existsInSource q (sourceText.resumeContent ++
            '\n' :: sourceText.coverLetterContent) = true) ∧
      (q ∈ (((Gemini.enforceEvidenceFromSource (Gemini.normalizeScoreMatch raw)
            sourceText).gapAnalysis.get ⟨i, hi⟩).evidence.jdQuotes) ↔
        q ∈ (((Gemini.normalizeScoreMatch raw).gapAnalysis.get
            ⟨i, hj⟩).evidence.jdQuotes) ∧
          Gemini.existsInSource q sourceText.jobDescription = true) ∧
      (q ∈ (((Gemini.enforceEvidenceFromSource (Gemini.normalizeScoreMatch raw)
            sourceText).gapAnalysis.get ⟨i, hi⟩).evidence.missingKeywords) ↔
        q ∈ (((Gemini.normalizeScoreMatch raw).gapAnalysis.get
            ⟨i, hj⟩).evidence.missingKeywords) ∧
          Gemini.existsInSource q sourceText.jobDescription = true)) := by
  refine ⟨?_, ?_, ?_⟩
  · intro gap hgap
    simp only [Gemini.enforceEvidenceFromSource] at hgap
    rcases List.mem_map.mp hgap with ⟨gapIn, hgapIn, hg⟩
    refine ⟨?_, ?_, ?_⟩
    · intro q hq
      rw [← hg] at hq
      have hq2 := List.mem_filter.mp hq
      exact ⟨normalizeScoreMatch_words_le raw gapIn hgapIn q (Or.inl hq2.1),
        hq2.2, existsInSource_substring q _ hq2.2⟩
    · intro q hq
      rw [← hg] at hq
      have hq2 := List.mem_filter.mp hq
      exact ⟨normalizeScoreMatch_words_le raw gapIn hgapIn q (Or.inr (Or.inl hq2.1)),
        hq2.2, existsInSource_substring q _ hq2.2⟩
    · intro q hq
      rw [← hg] at hq
      have hq2 := List.mem_filter.mp hq
      exact ⟨normalizeScoreMatch_words_le raw gapIn hgapIn q (Or.inr (Or.inr hq2.1)),
        hq2.2, existsInSource_substring q _ hq2.2⟩
  · simp [Gemini.enforceEvidenceFromSource]
  · intro i hi hj q
    have hmap : ((Gemini.enforceEvidenceFromSource (Gemini.normalizeScoreMatch raw)
        sourceText).gapAnalysis.get ⟨i, hi⟩) =
        (fun gap : Gemini.GapItem =>
          { gap with
            evidence :=
              { resumeQuotes := gap.evidence.resumeQuotes.filter
                  (fun quote => Gemini.existsInSource quote
                    (sourceText.resumeContent ++
                      '\n' :: sourceText.coverLetterContent)),
                jdQuotes := gap.evidence.jdQuotes.filter
                  (fun quote => Gemini.existsInSource quote
                    sourceText.jobDescription),
                missingKeywords := gap.evidence.missingKeywords.filter
                  (fun keyword => Gemini.existsInSource keyword
                    sourceText.jobDescription) } })
          ((Gemini.normalizeScoreMatch raw).gapAnalysis.get ⟨i, hj⟩) := by
      simp [Gemini.enforceEvidenceFromSource, List.get_map]
    rw [hmap]
    exact ⟨List.mem_filter, List.mem_filter, List.mem_filter⟩

/-- A concrete raw score-stage model output for the C8 witness: one
gap item with two resumeQuotes (one verifiable, one fabricated), one
jdQuote and one missingKeyword. -/
def c8Raw : Json :=
  .obj [("gapAnalysis".data,
    .arr [.obj [
      ("point".data, .str "Cloud orchestration experience".data),
      ("category".data, .str "optional".data),
      ("impact".data, .str "High".data),
      ("evidence".data, .obj [
        ("resumeQuotes".data, .arr [.str "LED Team".data,
          .str "Quantum blockchain wizardry".data]),
        ("jdQuotes".data, .arr [.str "Senior engineer".data]),
        ("missingKeywords".data, .arr [.str "Kubernetes".data])])]])]

/-- The concrete source texts for the C8 witness. -/
def c8Src : Gemini.SourceText :=
  { jobDescription := "Senior engineer wanted, Kubernetes a plus".data
  , resumeContent := "He led  team projects at Acme".data
  , coverLetterContent := "I enjoy infrastructure work".data }

/-- The expected filtered gap item: the fabricated quote is dropped,
the verifiable snippets survive. -/
def c8Gap : Gemini.GapItem :=
  { point := some "Cloud orchestration experience".data
  , category := .optional
  , impact := some "High".data
  , evidence :=
    { resumeQuotes := ["LED Team".data]
    , jdQuotes := ["Senior engineer".data]
    , missingKeywords := ["Kubernetes".data] } }

/-- Witness for C8: on the concrete run the expected gap item is in
the filtered output, the surviving quote is a member, and the theorem
yields its word bound and source checks. -/
theorem c8_evidence_clamped_and_source_bound_witness :
    (c8Gap ∈ (Gemini.enforceEvidenceFromSource (Gemini.normalizeScoreMatch c8Raw)
        c8Src).gapAnalysis) ∧
    ("LED Team".data ∈ c8Gap.evidence.resumeQuotes) ∧
    ((wsWords "LED Team".data).length ≤ Gemini.MAX_EVIDENCE_WORDS ∧
      Gemini.existsInSource "LED Team".data (c8Src.resumeContent ++
        '\n' :: c8Src.coverLetterContent) = true ∧
      ∃ k, ((Gemini.normalizeForMatch (c8Src.resumeContent ++
          '\n' :: c8Src.coverLetterContent)).drop k).take
        (Gemini.normalizeForMatch "LED Team".data).length =
          Gemini.normalizeForMatch "LED Team".data) :=
  ⟨by decide, by decide,
   ((c8_evidence_clamped_and_source_bound c8Raw c8Src).1 c8Gap (by decide)).1
     "LED Team".data (by decide)⟩

end Bew
